import Mathlib

/-!
Verification of the 8086 emulator core (decoder, scalar executor, EVEX
assembler) of the `performance_aware_programming` repository.

The definitions below are a shallow embedding of the Rust sources:

* `src/emu8086/cpu8086/src/register.rs`   — register identities
* `src/emu8086/cpu8086/src/instruction.rs`— instruction / operand model and display
* `src/emu8086/src/memory.rs`             — the memory-operand record
  (the `cpu8086` crate re-exports it as `memory_operand::MemoryOperand`;
  the record, `direct_address`, `from_mod_rm`, `with_displacement` and
  `with_segment` are taken from this file)
* `src/emu8086/cpu8086/src/decoder.rs`    — `decode_instruction` and helpers
* `src/emu8086/cpu8086/src/emu.rs`        — the scalar executor
* `src/emu8086/cpu8086/src/flags.rs`      — flag bit masks
* `src/emu8086/jit/src/evex.rs`           — the EVEX assembler

Machine integers are modelled as `Nat` (unsigned) and `Int` (signed) with
explicit `% 2^w` wrapping where the Rust code wraps.  Fallible operations
(decode errors, panics, out-of-bounds reads) are modelled with
`Except`/`Option`.
-/

namespace Emu8086

/-! ## Numeric helpers (two's complement conversions and 16-bit wrapping) -/

/-- Value of a byte reinterpreted as a signed 8-bit integer (`b as i8`). -/
def toI8 (b : Nat) : Int :=
  if b % 256 < 128 then ((b % 256 : Nat) : Int) else ((b % 256 : Nat) : Int) - 256

/-- Wrap an integer into the signed 8-bit range `[-128, 128)` (i8 arithmetic). -/
def i8wrap (x : Int) : Int := (x + 128) % 256 - 128

/-- Value of a 16-bit word reinterpreted as a signed 16-bit integer (`n as i16`). -/
def toI16 (n : Nat) : Int :=
  if n % 65536 < 32768 then ((n % 65536 : Nat) : Int)
  else ((n % 65536 : Nat) : Int) - 65536

/-- Reinterpret a signed integer as an unsigned 16-bit value (`x as u16`). -/
def u16ofI (x : Int) : Nat := (x % 65536).toNat

/-- Wrapping 16-bit subtraction (`u16::wrapping_sub`). -/
def wsub16 (a b : Nat) : Nat := ((((a : Int) - (b : Int)) % 65536)).toNat

/-- Wrapping 16-bit addition of an unsigned word and a signed displacement
(`u16::wrapping_add_signed`). -/
def u16AddSigned (a : Nat) (d : Int) : Nat := ((((a : Int) + d) % 65536)).toNat

/-- Fuel-bounded binary popcount; with fuel 16 it equals `u16::count_ones`
for arguments below `2 ^ 16`. -/
def countOnesAux : Nat → Nat → Nat
  | 0, _ => 0
  | fuel + 1, n => n % 2 + countOnesAux fuel (n / 2)

/-- Popcount of a 16-bit value (`u16::count_ones`). -/
def countOnes (n : Nat) : Nat := countOnesAux 16 n

/-! ## Registers (`register.rs`) -/

/-- Register bank of the 8086.  The first ten constructors are the 16-bit
main registers, in the order of the Rust `Register` enum (their enum values
double as indices into the register file); the remaining eight are the 8-bit
sub-registers.  The Rust `COUNT` marker variant is not a register and is
omitted. -/
inductive Register where
  | Ax | Bx | Cx | Dx | Si | Di | Sp | Bp | Ip | Flags
  | Al | Ah | Bl | Bh | Cl | Ch | Dl | Dh
  deriving DecidableEq, Repr

/-- Part of a 16-bit register denoted by a register name (`SubRegister`). -/
inductive SubRegister where
  | Full
  | High
  | Low
  deriving DecidableEq, Repr

/-- Segment registers, in Rust enum order (`Es = 0`). -/
inductive SegmentRegister where
  | Es | Cs | Ss | Ds
  deriving DecidableEq, Repr

/-- Split a register name into its 16-bit main register and the part it
denotes (`Register::as_sub_register`). -/
def Register.asSubRegister : Register → Register × SubRegister
  | .Ax => (.Ax, .Full) | .Bx => (.Bx, .Full) | .Cx => (.Cx, .Full)
  | .Dx => (.Dx, .Full) | .Si => (.Si, .Full) | .Di => (.Di, .Full)
  | .Bp => (.Bp, .Full) | .Sp => (.Sp, .Full) | .Ip => (.Ip, .Full)
  | .Flags => (.Flags, .Full)
  | .Al => (.Ax, .Low) | .Ah => (.Ax, .High)
  | .Bl => (.Bx, .Low) | .Bh => (.Bx, .High)
  | .Cl => (.Cx, .Low) | .Ch => (.Cx, .High)
  | .Dl => (.Dx, .Low) | .Dh => (.Dx, .High)

/-- Register selected by a decoded `reg`/`rm` field and the `w` bit
(`Register::from_reg_w`).  The Rust function is only ever called with
`reg < 8` and `w < 2`; the catch-all mirrors its unreachable branch. -/
def fromRegW (reg w : Nat) : Register :=
  match reg, w with
  | 0, 0 => .Al | 0, 1 => .Ax
  | 1, 0 => .Cl | 1, 1 => .Cx
  | 2, 0 => .Dl | 2, 1 => .Dx
  | 3, 0 => .Bl | 3, 1 => .Bx
  | 4, 0 => .Ah | 4, 1 => .Sp
  | 5, 0 => .Ch | 5, 1 => .Bp
  | 6, 0 => .Dh | 6, 1 => .Si
  | 7, 0 => .Bh | 7, 1 => .Di
  | _, _ => .Ax

/-! ## Memory operands (`src/emu8086/src/memory.rs`) -/

/-- Size of a memory access (`MemorySize`). -/
inductive MemorySize where
  | Byte
  | Word
  deriving DecidableEq, Repr

/-- Decode errors of the core.  `unknownInstruction` and
`unknownRepeatOpcode` come from `decoder.rs`; `threeModInMemory` and
`invalidRMValue` from the memory-operand constructor; `oob` models an
out-of-bounds byte access during decoding (a slice-index panic or an
out-of-bounds `Memory::read` in the Rust code). -/
inductive DecodeErr where
  | unknownInstruction (b addr : Nat)
  | unknownRepeatOpcode (b addr : Nat)
  | threeModInMemory
  | invalidRMValue (b : Nat)
  | oob
  deriving DecidableEq, Repr

/-- A memory operand (`MemoryOperand`).  `reg0`/`reg1` are the two slots of
the Rust `registers: [Option<Register>; 2]` array; `displacement` is the
optional signed 16-bit displacement; `address` the optional direct address. -/
structure MemoryOperand where
  reg0 : Option Register
  reg1 : Option Register
  displacement : Option Int
  size : Option MemorySize
  address : Option Nat
  segment : Option SegmentRegister
  deriving DecidableEq, Repr

/-- Record a segment override on a memory operand (`with_segment`). -/
def MemoryOperand.withSegment (m : MemoryOperand) (s : Option SegmentRegister) :
    MemoryOperand :=
  { m with segment := s }

/-- Record a displacement on a memory operand (`with_displacement`). -/
def MemoryOperand.withDisplacement (m : MemoryOperand) (d : Int) : MemoryOperand :=
  { m with displacement := some d }

/-- Build a direct-address memory operand (`MemoryOperand::direct_address`). -/
def MemoryOperand.directAddress (addr wide : Nat) : MemoryOperand :=
  { reg0 := none, reg1 := none, displacement := none
    size := some (if wide = 0 then .Byte else .Word)
    address := some addr, segment := none }

/-- Base-register assignment of the mod/rm table
(`MemoryOperand::from_mod_rm`). -/
def MemoryOperand.fromModRm (md rm wide : Nat) :
    Except DecodeErr MemoryOperand :=
  if md = 3 then .error .threeModInMemory
  else
    match rm with
    | 0 => .ok (mk (some .Bx) (some .Si))
    | 1 => .ok (mk (some .Bx) (some .Di))
    | 2 => .ok (mk (some .Bp) (some .Si))
    | 3 => .ok (mk (some .Bp) (some .Di))
    | 4 => .ok (mk (some .Si) none)
    | 5 => .ok (mk (some .Di) none)
    | 6 => .ok (if md ≠ 0 then mk (some .Bp) none else mk none none)
    | 7 => .ok (mk (some .Bx) none)
    | _ => .error (.invalidRMValue rm)
where
  /-- Assemble the operand from the selected base registers. -/
  mk (r0 r1 : Option Register) : MemoryOperand :=
    { reg0 := r0, reg1 := r1, displacement := none
      size := some (if wide = 0 then .Byte else .Word)
      address := none, segment := none }

/-! ## Instruction model (`instruction.rs`) -/

/-- Repeat mode carried by a string instruction (`Repeat`). -/
inductive RepeatMode where
  | WhileClearZeroFlag
  | WhileSetZeroFlag
  deriving DecidableEq, Repr

/-- An operand (`Operand`). -/
inductive Operand where
  | register (r : Register)
  | memory (m : MemoryOperand)
  | immediate (i : Int)
  | segmentRegister (s : SegmentRegister)
  deriving DecidableEq, Repr

/-- A decoded 8086 instruction (`Instruction`).  Short-jump offsets are the
stored signed 8-bit values; `ReturnWithOffset` carries a signed 16-bit
offset; `Interrupt` an 8-bit vector. -/
inductive Instruction where
  | Mov (dest src : Operand)
  | Push (src : Operand)
  | Pop (src : Operand)
  | Xchg (left right : Operand)
  | Nop
  | In (dest : Register) (src : Operand)
  | Out (dest : Operand) (src : Register)
  | Xlat
  | Lea (dest src : Operand)
  | Lds (dest src : Operand)
  | Les (dest src : Operand)
  | Lahf
  | Sahf
  | Pushf
  | Popf
  | Add (dest src : Operand)
  | Adc (dest src : Operand)
  | And (dest src : Operand)
  | Test (dest src : Operand)
  | Or (dest src : Operand)
  | Xor (dest src : Operand)
  | Inc (src : Operand)
  | Dec (src : Operand)
  | Aaa
  | Daa
  | Aas
  | Das
  | Aam
  | Aad
  | Sub (dest src : Operand)
  | Sbb (dest src : Operand)
  | Mul (src : Operand)
  | Imul (src : Operand)
  | Div (src : Operand)
  | Idiv (src : Operand)
  | Neg (src : Operand)
  | Cmp (left right : Operand)
  | Cbw
  | Cwd
  | Not (src : Operand)
  | Shl (src count : Operand)
  | Sar (src count : Operand)
  | Shr (src count : Operand)
  | Rol (src count : Operand)
  | Ror (src count : Operand)
  | Rcl (src count : Operand)
  | Rcr (src count : Operand)
  | MoveByte (rep : Option RepeatMode)
  | MoveWord (rep : Option RepeatMode)
  | CmpByte (rep : Option RepeatMode)
  | CmpWord (rep : Option RepeatMode)
  | ScanByte (rep : Option RepeatMode)
  | ScanWord (rep : Option RepeatMode)
  | LoadByte (rep : Option RepeatMode)
  | LoadWord (rep : Option RepeatMode)
  | StoreByte (rep : Option RepeatMode)
  | StoreWord (rep : Option RepeatMode)
  | Call (dest : Operand)
  | Jump (dest : Operand)
  | ReturnWithOffset (offset : Int)
  | Return
  | JumpEqual (offset : Int)
  | JumpLessThan (offset : Int)
  | JumpLessThanEqual (offset : Int)
  | JumpBelow (offset : Int)
  | JumpBelowEqual (offset : Int)
  | JumpParityEven (offset : Int)
  | JumpOverflow (offset : Int)
  | JumpSign (offset : Int)
  | JumpParityOdd (offset : Int)
  | JumpNotEqual (offset : Int)
  | JumpNotLessThan (offset : Int)
  | JumpNotLessThanEqual (offset : Int)
  | JumpNotBelow (offset : Int)
  | JumpNotBelowEqual (offset : Int)
  | JumpNotOverflow (offset : Int)
  | JumpNotSign (offset : Int)
  | Loop (offset : Int)
  | LoopWhileZero (offset : Int)
  | LoopWhileNotZero (offset : Int)
  | JumpCxZero (offset : Int)
  | Interrupt (vector : Nat)
  | InterruptOnOverflow
  | InterruptReturn
  | ClearCarry
  | ComplementCarry
  | SetCarry
  | ClearDirection
  | SetDirection
  | ClearInterrupt
  | SetInterrupt
  | Halt
  | Wait
  | Lock
  deriving Repr

/-! ## Decoder (`decoder.rs`) -/

/-- Read the byte at index `i` of the memory image.  Out-of-bounds access
(a slice-index panic in the Rust code) yields `.oob`. -/
def readByte (mem : List Nat) (i : Nat) : Except DecodeErr Nat :=
  match mem.get? i with
  | some b => .ok (b % 256)
  | none => .error .oob

/-- Segment register denoted by a 2-bit field.  Callers mask with `0b11`,
so the catch-all mirrors the Rust unreachable branch. -/
def segFromBits (n : Nat) : SegmentRegister :=
  match n with
  | 0 => .Es
  | 1 => .Cs
  | 2 => .Ss
  | _ => .Ds

/-- Parse a "mod|reg|rm" second byte starting at instruction position `pos`
(`parse_mod_reg_rm_instr`).  Returns the reg operand, the rm operand and the
number of bytes consumed so far. -/
def parseModRegRm (mem : List Nat) (pos wide : Nat) (seg : Option SegmentRegister) :
    Except DecodeErr (Operand × Operand × Nat) :=
  match readByte mem (pos + 1) with
  | .error e => .error e
  | .ok b1 =>
    let rm := b1 &&& 7
    let reg := (b1 >>> 3) &&& 7
    let md := (b1 >>> 6) &&& 3
    let rg := Operand.register (fromRegW reg wide)
    if md = 0 then
      if rm = 6 then
        match readByte mem (pos + 2), readByte mem (pos + 3) with
        | .ok lo, .ok hi =>
          .ok (rg, .memory ((MemoryOperand.directAddress (lo ||| hi <<< 8) wide).withSegment
            seg), 4)
        | .error e, _ => .error e
        | _, .error e => .error e
      else
        match MemoryOperand.fromModRm md rm wide with
        | .error e => .error e
        | .ok m => .ok (rg, .memory (m.withSegment seg), 2)
    else if md = 1 then
      match readByte mem (pos + 2) with
      | .error e => .error e
      | .ok b2 =>
        match MemoryOperand.fromModRm md rm wide with
        | .error e => .error e
        | .ok m =>
          .ok (rg, .memory ((m.withDisplacement (toI8 b2)).withSegment seg), 3)
    else if md = 2 then
      match readByte mem (pos + 2), readByte mem (pos + 3) with
      | .ok b2, .ok b3 =>
        match MemoryOperand.fromModRm md rm wide with
        | .error e => .error e
        | .ok m =>
          .ok (rg, .memory ((m.withDisplacement (toI16 (b2 ||| b3 <<< 8))).withSegment seg), 4)
      | .error e, _ => .error e
      | _, .error e => .error e
    else
      .ok (rg, .register (fromRegW rm wide), 2)

/-- Parse a "mod|segreg|rm" second byte (`parse_mod_segreg_rm_instr`). -/
def parseModSegregRm (mem : List Nat) (pos : Nat) (seg : Option SegmentRegister) :
    Except DecodeErr (SegmentRegister × Operand × Nat) :=
  match readByte mem (pos + 1) with
  | .error e => .error e
  | .ok b1 =>
    let rm := b1 &&& 7
    let md := (b1 >>> 6) &&& 3
    let sr := segFromBits ((b1 >>> 3) &&& 3)
    -- segment registers are always 16 bits
    let wide := 1
    if md = 0 then
      if rm = 6 then
        match readByte mem (pos + 2), readByte mem (pos + 3) with
        | .ok lo, .ok hi =>
          .ok (sr, .memory ((MemoryOperand.directAddress (lo ||| hi <<< 8) wide).withSegment
            seg), 4)
        | .error e, _ => .error e
        | _, .error e => .error e
      else
        match MemoryOperand.fromModRm md rm wide with
        | .error e => .error e
        | .ok m => .ok (sr, .memory (m.withSegment seg), 2)
    else if md = 1 then
      match readByte mem (pos + 2) with
      | .error e => .error e
      | .ok b2 =>
        match MemoryOperand.fromModRm md rm wide with
        | .error e => .error e
        | .ok m =>
          .ok (sr, .memory ((m.withDisplacement (toI8 b2)).withSegment seg), 3)
    else if md = 2 then
      match readByte mem (pos + 2), readByte mem (pos + 3) with
      | .ok b2, .ok b3 =>
        match MemoryOperand.fromModRm md rm wide with
        | .error e => .error e
        | .ok m =>
          .ok (sr, .memory ((m.withDisplacement (toI16 (b2 ||| b3 <<< 8))).withSegment seg), 4)
      | .error e, _ => .error e
      | _, .error e => .error e
    else
      .ok (sr, .register (fromRegW rm wide), 2)

/-- Result of dispatching one opcode: a finished instruction with the byte
count of its arm, or a segment-override prefix that restarts the loop. -/
inductive ArmStep where
  | done (i : Instruction) (size : Nat)
  | moreSeg (s : SegmentRegister)

/-- The `unknown_instr!` macro: report the byte at the instruction start. -/
def unknownInstr (mem : List Nat) (addr0 : Nat) : Except DecodeErr ArmStep :=
  match readByte mem addr0 with
  | .ok b => .error (.unknownInstruction b addr0)
  | .error e => .error e

/-- Strip the memory size from an rm operand (done by the lea/lds/les arms). -/
def clearMemSize : Operand → Operand
  | .memory m => .memory { m with size := none }
  | op => op

/-- Arm group "register/memory to/from register" of the opcode match (the
first arm of the Rust `match`), including the `0xF6/0xF7`, shift/rotate and
`0xFE` sub-dispatch on the middle bits of the second byte. -/
def armAluRm (mem : List Nat) (pos addr0 : Nat) (seg : Option SegmentRegister)
    (b0 : Nat) : Except DecodeErr ArmStep :=
  let w := b0 &&& 1
  let d := (b0 >>> 1) &&& 1
  match parseModRegRm mem pos w seg with
  | .error e => .error e
  | .ok (reg, rm, size0) =>
    let dest := if d = 1 then reg else rm
    let src := if d = 1 then rm else reg
    if b0 &&& 0xFC = 0x88 then .ok (.done (.Mov dest src) size0)
    else if b0 &&& 0xFC = 0x00 then .ok (.done (.Add dest src) size0)
    else if b0 &&& 0xFC = 0x08 then .ok (.done (.Or dest src) size0)
    else if b0 &&& 0xFC = 0x10 then .ok (.done (.Adc dest src) size0)
    else if b0 &&& 0xFC = 0x28 then .ok (.done (.Sub dest src) size0)
    else if b0 &&& 0xFC = 0x18 then .ok (.done (.Sbb dest src) size0)
    else if b0 &&& 0xFC = 0x38 then .ok (.done (.Cmp dest src) size0)
    else if b0 &&& 0xFC = 0x20 then .ok (.done (.And dest src) size0)
    else if b0 &&& 0xFC = 0x30 then .ok (.done (.Xor dest src) size0)
    else if b0 &&& 0xFC = 0x84 then .ok (.done (.Test dest src) size0)
    else if b0 &&& 0xFC = 0xF4 then
      match readByte mem (pos + 1) with
      | .error e => .error e
      | .ok b1 =>
        let opcode := (b1 >>> 3) &&& 7
        if opcode = 0 then
          match readByte mem (pos + size0) with
          | .error e => .error e
          | .ok i0 =>
            if w > 0 then
              match readByte mem (pos + size0 + 1) with
              | .error e => .error e
              | .ok i1 =>
                .ok (.done (.Test rm (.immediate (toI16 (i0 ||| i1 <<< 8))))
                  (size0 + 2))
            else
              .ok (.done (.Test rm (.immediate (toI16 i0))) (size0 + 1))
        else if opcode = 1 then unknownInstr mem addr0
        else if opcode = 2 then .ok (.done (.Not src) size0)
        else if opcode = 3 then .ok (.done (.Neg src) size0)
        else if opcode = 4 then .ok (.done (.Mul src) size0)
        else if opcode = 5 then .ok (.done (.Imul src) size0)
        else if opcode = 6 then .ok (.done (.Div src) size0)
        else .ok (.done (.Idiv src) size0)
    else if b0 &&& 0xFC = 0xD0 then
      match readByte mem (pos + 1) with
      | .error e => .error e
      | .ok b1 =>
        -- v is the D flag for these opcodes
        let count := if d = 1 then Operand.register .Cl else .immediate 1
        let opcode := (b1 >>> 3) &&& 7
        if opcode = 0 then .ok (.done (.Rol rm count) size0)
        else if opcode = 1 then .ok (.done (.Ror rm count) size0)
        else if opcode = 2 then .ok (.done (.Rcl rm count) size0)
        else if opcode = 3 then .ok (.done (.Rcr rm count) size0)
        else if opcode = 4 then .ok (.done (.Shl rm count) size0)
        else if opcode = 5 then .ok (.done (.Shr rm count) size0)
        else if opcode = 7 then .ok (.done (.Sar rm count) size0)
        else unknownInstr mem addr0
    else if b0 &&& 0xFC = 0xFC then
      match readByte mem (pos + 1) with
      | .error e => .error e
      | .ok b1 =>
        if (b1 >>> 3) &&& 7 = 0 then .ok (.done (.Inc src) size0)
        else if (b1 >>> 3) &&& 7 = 1 then .ok (.done (.Dec src) size0)
        else unknownInstr mem addr0
    else unknownInstr mem addr0

/-- Arm "immediate to register/memory" (`0x80..0x83`, `0xC6..0xC7`).  Note
that the immediate value is replaced by the `0xdead` placeholder in the
byte-mov and non-(w=1,s=0) arithmetic branches, exactly as in the source;
the immediate byte is still consumed. -/
def armImmRm (mem : List Nat) (pos _addr0 : Nat) (seg : Option SegmentRegister)
    (b0 : Nat) : Except DecodeErr ArmStep :=
  let wide := b0 &&& 1
  let s := (b0 >>> 1) &&& 1
  match parseModRegRm mem pos wide seg with
  | .error e => .error e
  | .ok (_, rm, size0) =>
    match readByte mem (pos + 1), readByte mem (pos + size0) with
    | .ok b1, .ok i0 =>
      let step : Except DecodeErr (Nat × Nat) :=
        if b0 = 0xC6 then
          -- do not get a u16 immediate for a byte mov
          .ok (0xdead, size0 + 1)
        else if b0 = 0xC7 then
          match readByte mem (pos + size0 + 1) with
          | .error e => .error e
          | .ok i1 => .ok (i0 ||| i1 <<< 8, size0 + 2)
        else if wide > 0 ∧ s = 0 then
          match readByte mem (pos + size0 + 1) with
          | .error e => .error e
          | .ok i1 => .ok (i0 ||| i1 <<< 8, size0 + 2)
        else
          .ok (0xdead, size0 + 1)
      match step with
      | .error e => .error e
      | .ok (immVal, size) =>
        let dest := rm
        let src := Operand.immediate (toI16 immVal)
        let opcode := (b1 >>> 3) &&& 7
        if opcode = 0 then
          if b0 &&& 0xFE = 0xC6 then .ok (.done (.Mov dest src) size)
          else if b0 &&& 0xFE = 0xF6 then .ok (.done (.Test dest src) size)
          else .ok (.done (.Add dest src) size)
        else if opcode = 1 then .ok (.done (.Or dest src) size)
        else if opcode = 2 then .ok (.done (.Adc dest src) size)
        else if opcode = 3 then .ok (.done (.Sbb dest src) size)
        else if opcode = 4 then .ok (.done (.And dest src) size)
        else if opcode = 5 then .ok (.done (.Sub dest src) size)
        else if opcode = 6 then .ok (.done (.Xor dest src) size)
        else .ok (.done (.Cmp dest src) size)
    | .error e, _ => .error e
    | _, .error e => .error e

/-- Arm "immediate to accumulator". -/
def armImmAcc (mem : List Nat) (pos addr0 : Nat) (b0 : Nat) :
    Except DecodeErr ArmStep :=
  let wide := b0 &&& 1
  match readByte mem (pos + 1) with
  | .error e => .error e
  | .ok i0 =>
    let cont (imm : Nat) (acc : Register) (size : Nat) :
        Except DecodeErr ArmStep :=
      let dest := Operand.register acc
      let src := Operand.immediate (toI16 imm)
      if b0 &&& 0xFE = 0x04 then .ok (.done (.Add dest src) size)
      else if b0 &&& 0xFE = 0x0C then .ok (.done (.Or dest src) size)
      else if b0 &&& 0xFE = 0x14 then .ok (.done (.Adc dest src) size)
      else if b0 &&& 0xFE = 0x2C then .ok (.done (.Sub dest src) size)
      else if b0 &&& 0xFE = 0x1C then .ok (.done (.Sbb dest src) size)
      else if b0 &&& 0xFE = 0x34 then .ok (.done (.Xor dest src) size)
      else if b0 &&& 0xFE = 0x3C then .ok (.done (.Cmp dest src) size)
      else if b0 &&& 0xFE = 0x24 then .ok (.done (.And dest src) size)
      else if b0 &&& 0xFE = 0xA8 then .ok (.done (.Test dest src) size)
      else unknownInstr mem addr0
    if wide > 0 then
      match readByte mem (pos + 2) with
      | .error e => .error e
      | .ok i1 => cont (i0 ||| i1 <<< 8) .Ax 3
    else cont i0 .Al 2

/-- Arm "MOV immediate to register" (`0xB0..0xBF`). -/
def armMovImmReg (mem : List Nat) (pos : Nat) (b0 : Nat) :
    Except DecodeErr ArmStep :=
  let wide := (b0 >>> 3) &&& 1
  let reg := fromRegW (b0 &&& 7) wide
  match readByte mem (pos + 1) with
  | .error e => .error e
  | .ok i0 =>
    if wide > 0 then
      match readByte mem (pos + 2) with
      | .error e => .error e
      | .ok i1 =>
        .ok (.done (.Mov (.register reg) (.immediate (toI16 (i0 ||| i1 <<< 8)))) 3)
    else .ok (.done (.Mov (.register reg) (.immediate (toI16 i0))) 2)

/-- Arm "MOV memory to accumulator" (`0xA0..0xA1`). -/
def armMovMemToAcc (mem : List Nat) (pos : Nat) (seg : Option SegmentRegister)
    (b0 : Nat) : Except DecodeErr ArmStep :=
  let wide := b0 &&& 1
  match readByte mem (pos + 1) with
  | .error e => .error e
  | .ok i0 =>
    if wide > 0 then
      match readByte mem (pos + 2) with
      | .error e => .error e
      | .ok i1 =>
        .ok (.done (.Mov (.register .Ax)
          (.memory ((MemoryOperand.directAddress (i0 ||| i1 <<< 8) wide).withSegment
            seg))) 3)
    else
      .ok (.done (.Mov (.register .Ax)
        (.memory ((MemoryOperand.directAddress i0 wide).withSegment seg))) 2)

/-- Arm "MOV accumulator to memory" (`0xA2..0xA3`). -/
def armMovAccToMem (mem : List Nat) (pos : Nat) (seg : Option SegmentRegister)
    (b0 : Nat) : Except DecodeErr ArmStep :=
  let wide := b0 &&& 1
  match readByte mem (pos + 1) with
  | .error e => .error e
  | .ok i0 =>
    if wide > 0 then
      match readByte mem (pos + 2) with
      | .error e => .error e
      | .ok i1 =>
        .ok (.done (.Mov
          (.memory ((MemoryOperand.directAddress (i0 ||| i1 <<< 8) wide).withSegment
            seg)) (.register .Ax)) 3)
    else
      .ok (.done (.Mov
        (.memory ((MemoryOperand.directAddress i0 wide).withSegment seg))
        (.register .Ax)) 2)

/-- Arm "repeat prefix bound to a string-op opcode" (`0xF2..0xF3`). -/
def armRepeatStr (mem : List Nat) (pos addr0 : Nat) (b0 : Nat) :
    Except DecodeErr ArmStep :=
  let rep := if b0 &&& 1 = 0 then RepeatMode.WhileClearZeroFlag
    else RepeatMode.WhileSetZeroFlag
  match readByte mem (pos + 1) with
  | .error e => .error e
  | .ok b1 =>
    if b1 = 0xA4 then .ok (.done (.MoveByte (some rep)) 2)
    else if b1 = 0xA5 then .ok (.done (.MoveWord (some rep)) 2)
    else if b1 = 0xA6 then .ok (.done (.CmpByte (some rep)) 2)
    else if b1 = 0xA7 then .ok (.done (.CmpWord (some rep)) 2)
    else if b1 = 0xAE then .ok (.done (.ScanByte (some rep)) 2)
    else if b1 = 0xAF then .ok (.done (.ScanWord (some rep)) 2)
    else if b1 = 0xAC then .ok (.done (.LoadByte (some rep)) 2)
    else if b1 = 0xAD then .ok (.done (.LoadWord (some rep)) 2)
    else if b1 = 0xAA then .ok (.done (.StoreByte (some rep)) 2)
    else if b1 = 0xAB then .ok (.done (.StoreWord (some rep)) 2)
    else .error (.unknownRepeatOpcode b1 addr0)

/-- Arm for the twenty short-jump/loop opcodes: the stored offset is
`input[1] as i8 + 2` computed in (wrapping) signed 8-bit arithmetic. -/
def armShortJump (mem : List Nat) (pos : Nat) (b0 : Nat) :
    Except DecodeErr ArmStep :=
  match readByte mem (pos + 1) with
  | .error e => .error e
  | .ok b1 =>
    let off := i8wrap (toI8 b1 + 2)
    if b0 = 0x74 then .ok (.done (.JumpEqual off) 2)
    else if b0 = 0x75 then .ok (.done (.JumpNotEqual off) 2)
    else if b0 = 0x7C then .ok (.done (.JumpLessThan off) 2)
    else if b0 = 0x7E then .ok (.done (.JumpLessThanEqual off) 2)
    else if b0 = 0x72 then .ok (.done (.JumpBelow off) 2)
    else if b0 = 0x76 then .ok (.done (.JumpBelowEqual off) 2)
    else if b0 = 0x7A then .ok (.done (.JumpParityEven off) 2)
    else if b0 = 0x70 then .ok (.done (.JumpOverflow off) 2)
    else if b0 = 0x78 then .ok (.done (.JumpSign off) 2)
    else if b0 = 0x7D then .ok (.done (.JumpNotLessThan off) 2)
    else if b0 = 0x7F then .ok (.done (.JumpNotLessThanEqual off) 2)
    else if b0 = 0x73 then .ok (.done (.JumpNotBelow off) 2)
    else if b0 = 0x77 then .ok (.done (.JumpNotBelowEqual off) 2)
    else if b0 = 0x7B then .ok (.done (.JumpParityOdd off) 2)
    else if b0 = 0x71 then .ok (.done (.JumpNotOverflow off) 2)
    else if b0 = 0x79 then .ok (.done (.JumpNotSign off) 2)
    else if b0 = 0xE2 then .ok (.done (.Loop off) 2)
    else if b0 = 0xE1 then .ok (.done (.LoopWhileZero off) 2)
    else if b0 = 0xE0 then .ok (.done (.LoopWhileNotZero off) 2)
    else .ok (.done (.JumpCxZero off) 2)

/-- Arm for opcode `0xFF` (inc/dec/call/jmp/push on rm16). -/
def armGroupFF (mem : List Nat) (pos addr0 : Nat) (seg : Option SegmentRegister) :
    Except DecodeErr ArmStep :=
  match parseModRegRm mem pos 1 seg with
  | .error e => .error e
  | .ok (_, rm, size) =>
    match readByte mem (pos + 1) with
    | .error e => .error e
    | .ok b1 =>
      let opcode := (b1 >>> 3) &&& 7
      if opcode = 0 then .ok (.done (.Inc rm) size)
      else if opcode = 1 then .ok (.done (.Dec rm) size)
      else if opcode = 2 then .ok (.done (.Call rm) size)
      else if opcode = 4 then .ok (.done (.Jump rm) size)
      else if opcode = 6 then .ok (.done (.Push rm) size)
      else unknownInstr mem addr0

/-- One iteration of the `decode_instruction` match: dispatch on the opcode
byte at `pos`.  `addr0` is the instruction's start address (used in error
values), `seg` the pending segment override.  The arm order and every bit
test mirror the Rust `match`; the larger arms are the `arm…` helpers
above. -/
def decodeArm (mem : List Nat) (pos addr0 : Nat) (seg : Option SegmentRegister) :
    Except DecodeErr ArmStep :=
  match readByte mem pos with
  | .error e => .error e
  | .ok b0 =>
    -- <OPERATION> Register/memory to/from register
    if (0x88 ≤ b0 ∧ b0 ≤ 0x8B) ∨ b0 ≤ 0x03 ∨ (0x08 ≤ b0 ∧ b0 ≤ 0x0B)
        ∨ (0x10 ≤ b0 ∧ b0 ≤ 0x13) ∨ (0x18 ≤ b0 ∧ b0 ≤ 0x1B)
        ∨ (0x20 ≤ b0 ∧ b0 ≤ 0x23) ∨ (0x28 ≤ b0 ∧ b0 ≤ 0x2B)
        ∨ (0x38 ≤ b0 ∧ b0 ≤ 0x3B) ∨ (0x84 ≤ b0 ∧ b0 ≤ 0x85)
        ∨ b0 = 0xFE ∨ (0xF6 ≤ b0 ∧ b0 ≤ 0xF7) ∨ (0xD0 ≤ b0 ∧ b0 ≤ 0xD3)
        ∨ (0x30 ≤ b0 ∧ b0 ≤ 0x33) then
      armAluRm mem pos addr0 seg b0
    -- <OPERATION> Immediate to register/memory
    else if (0x80 ≤ b0 ∧ b0 ≤ 0x83) ∨ (0xC6 ≤ b0 ∧ b0 ≤ 0xC7) then
      armImmRm mem pos addr0 seg b0
    -- <OPERATION> Immediate to accumulator
    else if (0x04 ≤ b0 ∧ b0 ≤ 0x05) ∨ (0x0C ≤ b0 ∧ b0 ≤ 0x0D)
        ∨ (0x14 ≤ b0 ∧ b0 ≤ 0x15) ∨ (0x2C ≤ b0 ∧ b0 ≤ 0x2D)
        ∨ (0x24 ≤ b0 ∧ b0 ≤ 0x25) ∨ (0x1C ≤ b0 ∧ b0 ≤ 0x1D)
        ∨ (0x34 ≤ b0 ∧ b0 ≤ 0x35) ∨ (0x3C ≤ b0 ∧ b0 ≤ 0x3D)
        ∨ (0xA8 ≤ b0 ∧ b0 ≤ 0xA9) then
      armImmAcc mem pos addr0 b0
    -- MOV Immediate to register
    else if 0xB0 ≤ b0 ∧ b0 ≤ 0xBF then
      armMovImmReg mem pos b0
    -- MOV Memory to accumulator
    else if 0xA0 ≤ b0 ∧ b0 ≤ 0xA1 then
      armMovMemToAcc mem pos seg b0
    -- MOV Accumulator to memory
    else if 0xA2 ≤ b0 ∧ b0 ≤ 0xA3 then
      armMovAccToMem mem pos seg b0
    -- MOV Register/memory to segment register
    else if b0 = 0x8E then
      match parseModSegregRm mem pos seg with
      | .error e => .error e
      | .ok (sr, op, size) => .ok (.done (.Mov (.segmentRegister sr) op) size)
    -- MOV segment register to register/memory
    else if b0 = 0x8C then
      match parseModSegregRm mem pos seg with
      | .error e => .error e
      | .ok (sr, op, size) => .ok (.done (.Mov op (.segmentRegister sr)) size)
    -- PUSH register
    else if 0x50 ≤ b0 ∧ b0 ≤ 0x57 then
      .ok (.done (.Push (.register (fromRegW (b0 &&& 7) 1))) 1)
    -- PUSH segment register (the Rust code reads the field from the SECOND byte)
    else if b0 = 0x06 ∨ b0 = 0x0E ∨ b0 = 0x16 ∨ b0 = 0x1E then
      match readByte mem (pos + 1) with
      | .error e => .error e
      | .ok b1 =>
        .ok (.done (.Push (.segmentRegister (segFromBits ((b1 >>> 3) &&& 3)))) 1)
    -- POP register/memory
    else if b0 = 0x8F then
      match parseModRegRm mem pos 1 seg with
      | .error e => .error e
      | .ok (_, rm, size) => .ok (.done (.Pop rm) size)
    -- POP register
    else if 0x58 ≤ b0 ∧ b0 ≤ 0x5F then
      .ok (.done (.Pop (.register (fromRegW (b0 &&& 7) 1))) 1)
    -- POP segment register
    else if b0 = 0x07 ∨ b0 = 0x0F ∨ b0 = 0x17 ∨ b0 = 0x1F then
      .ok (.done (.Pop (.segmentRegister (segFromBits ((b0 >>> 3) &&& 3)))) 1)
    -- XCHG register/memory with register
    else if 0x86 ≤ b0 ∧ b0 ≤ 0x87 then
      match parseModRegRm mem pos (b0 &&& 1) seg with
      | .error e => .error e
      | .ok (reg, rm, size) => .ok (.done (.Xchg reg rm) size)
    -- XCHG with accumulator
    else if 0x91 ≤ b0 ∧ b0 ≤ 0x97 then
      .ok (.done (.Xchg (.register (fromRegW (b0 &&& 7) 1)) (.register .Ax)) 1)
    -- NOP
    else if b0 = 0x90 then .ok (.done .Nop 1)
    -- IN (variable port)
    else if 0xE4 ≤ b0 ∧ b0 ≤ 0xE5 then
      match readByte mem (pos + 1) with
      | .error e => .error e
      | .ok data =>
        .ok (.done (.In (if b0 &&& 1 = 0 then .Al else .Ax) (.immediate data)) 2)
    -- IN (fixed port)
    else if 0xEC ≤ b0 ∧ b0 ≤ 0xED then
      .ok (.done (.In (if b0 &&& 1 = 0 then .Al else .Ax) (.register .Dx)) 1)
    -- OUT (variable port)
    else if 0xE6 ≤ b0 ∧ b0 ≤ 0xE7 then
      match readByte mem (pos + 1) with
      | .error e => .error e
      | .ok port =>
        .ok (.done (.Out (.immediate port) (if b0 &&& 1 = 0 then .Al else .Ax)) 2)
    -- OUT (fixed port)
    else if 0xEE ≤ b0 ∧ b0 ≤ 0xEF then
      .ok (.done (.Out (.register .Dx) (if b0 &&& 1 = 0 then .Al else .Ax)) 1)
    -- XLAT
    else if b0 = 0xD7 then .ok (.done .Xlat 1)
    -- LEA
    else if b0 = 0x8D then
      match parseModRegRm mem pos 1 seg with
      | .error e => .error e
      | .ok (reg, rm, size) => .ok (.done (.Lea reg (clearMemSize rm)) size)
    -- LDS
    else if b0 = 0xC5 then
      match parseModRegRm mem pos 1 seg with
      | .error e => .error e
      | .ok (reg, rm, size) => .ok (.done (.Lds reg (clearMemSize rm)) size)
    -- LES
    else if b0 = 0xC4 then
      match parseModRegRm mem pos 1 seg with
      | .error e => .error e
      | .ok (reg, rm, size) => .ok (.done (.Les reg (clearMemSize rm)) size)
    else if b0 = 0x9F then .ok (.done .Lahf 1)
    else if b0 = 0x9E then .ok (.done .Sahf 1)
    else if b0 = 0x9C then .ok (.done .Pushf 1)
    else if b0 = 0x9D then .ok (.done .Popf 1)
    else if b0 = 0x37 then .ok (.done .Aaa 1)
    else if b0 = 0x27 then .ok (.done .Daa 1)
    else if b0 = 0x3F then .ok (.done .Aas 1)
    else if b0 = 0x2F then .ok (.done .Das 1)
    else if b0 = 0xD4 then .ok (.done .Aam 2)
    else if b0 = 0xD5 then .ok (.done .Aad 2)
    else if b0 = 0x98 then .ok (.done .Cbw 1)
    else if b0 = 0x99 then .ok (.done .Cwd 1)
    -- INC register
    else if 0x40 ≤ b0 ∧ b0 ≤ 0x47 then
      .ok (.done (.Inc (.register (fromRegW (b0 &&& 7) 1))) 1)
    -- DEC register
    else if 0x48 ≤ b0 ∧ b0 ≤ 0x4F then
      .ok (.done (.Dec (.register (fromRegW (b0 &&& 7) 1))) 1)
    -- repeat prefix bound to a string-op opcode
    else if 0xF2 ≤ b0 ∧ b0 ≤ 0xF3 then
      armRepeatStr mem pos addr0 b0
    else if b0 = 0xA4 then .ok (.done (.MoveByte none) 1)
    else if b0 = 0xA5 then .ok (.done (.MoveWord none) 1)
    else if b0 = 0xA6 then .ok (.done (.CmpByte none) 1)
    else if b0 = 0xA7 then .ok (.done (.CmpWord none) 1)
    else if b0 = 0xAE then .ok (.done (.ScanByte none) 1)
    else if b0 = 0xAF then .ok (.done (.ScanWord none) 1)
    else if b0 = 0xAC then .ok (.done (.LoadByte none) 1)
    else if b0 = 0xAD then .ok (.done (.LoadWord none) 1)
    else if b0 = 0xAA then .ok (.done (.StoreByte none) 1)
    else if b0 = 0xAB then .ok (.done (.StoreWord none) 1)
    -- RET with offset
    else if b0 = 0xC2 then
      match readByte mem (pos + 1), readByte mem (pos + 2) with
      | .ok lo, .ok hi => .ok (.done (.ReturnWithOffset (toI16 (lo ||| hi <<< 8))) 3)
      | .error e, _ => .error e
      | _, .error e => .error e
    else if b0 = 0xC3 then .ok (.done .Return 1)
    -- short jumps and loops: offset is (input[1] as i8) + 2 in i8 arithmetic
    else if b0 = 0x74 ∨ b0 = 0x75 ∨ b0 = 0x7C ∨ b0 = 0x7E ∨ b0 = 0x72 ∨ b0 = 0x76
        ∨ b0 = 0x7A ∨ b0 = 0x70 ∨ b0 = 0x78 ∨ b0 = 0x7D ∨ b0 = 0x7F ∨ b0 = 0x73
        ∨ b0 = 0x77 ∨ b0 = 0x7B ∨ b0 = 0x71 ∨ b0 = 0x79 ∨ b0 = 0xE2 ∨ b0 = 0xE1
        ∨ b0 = 0xE0 ∨ b0 = 0xE3 then
      armShortJump mem pos b0
    -- INT
    else if b0 = 0xCD then
      match readByte mem (pos + 1) with
      | .error e => .error e
      | .ok v => .ok (.done (.Interrupt v) 2)
    else if b0 = 0xCC then .ok (.done (.Interrupt 3) 1)
    else if b0 = 0xCE then .ok (.done .InterruptOnOverflow 1)
    else if b0 = 0xCF then .ok (.done .InterruptReturn 1)
    else if b0 = 0xF8 then .ok (.done .ClearCarry 1)
    else if b0 = 0xF5 then .ok (.done .ComplementCarry 1)
    else if b0 = 0xF9 then .ok (.done .SetCarry 1)
    else if b0 = 0xFC then .ok (.done .ClearDirection 1)
    else if b0 = 0xFD then .ok (.done .SetDirection 1)
    else if b0 = 0xFA then .ok (.done .ClearInterrupt 1)
    else if b0 = 0xFB then .ok (.done .SetInterrupt 1)
    else if b0 = 0xF4 then .ok (.done .Halt 1)
    else if b0 = 0x9B then .ok (.done .Wait 1)
    else if b0 = 0xF0 then .ok (.done .Lock 1)
    -- segment override prefix
    else if b0 = 0x26 ∨ b0 = 0x2E ∨ b0 = 0x36 ∨ b0 = 0x3E then
      .ok (.moreSeg (segFromBits ((b0 >>> 3) &&& 3)))
    -- group 0xFF: inc/dec/call/jmp/push on rm16
    else if b0 = 0xFF then
      armGroupFF mem pos addr0 seg
    else unknownInstr mem addr0

/-- The decode loop of `decode_instruction`: consume segment-override
prefixes (advancing IP by one for each), then dispatch the opcode.  `addr0`
is the IP at entry, `k` the number of prefix bytes consumed so far.  On
success it returns the instruction together with the new IP value,
`(addr0 + k + size) % 2^16` (the Rust code adds to the 16-bit `cpu.ip`). -/
def decodeLoop (mem : List Nat) (addr0 : Nat) (seg : Option SegmentRegister)
    (k : Nat) : Nat → Except DecodeErr (Instruction × Nat)
  | 0 => .error .oob
  | fuel + 1 =>
    match decodeArm mem (addr0 + k) addr0 seg with
    | .ok (.moreSeg sr) => decodeLoop mem addr0 (some sr) (k + 1) fuel
    | .ok (.done i size) => .ok (i, (addr0 + k + size) % 65536)
    | .error e => .error e

/-- Decode one instruction at `ip` (`decode_instruction`): returns the
instruction and the advanced IP. -/
def decodeInstruction (mem : List Nat) (ip : Nat) :
    Except DecodeErr (Instruction × Nat) :=
  decodeLoop mem ip none 0 (mem.length + 1)

/-! ## Scalar executor (`emu.rs`) -/

/-- Register state of the scalar emulator: the ten 16-bit main registers of
`RegisterState.regs` (in enum order) together with the four segment
registers of `Emulator.segments`. -/
structure RegState where
  ax : Nat := 0
  bx : Nat := 0
  cx : Nat := 0
  dx : Nat := 0
  si : Nat := 0
  di : Nat := 0
  sp : Nat := 0
  bp : Nat := 0
  ip : Nat := 0
  flags : Nat := 0
  es : Nat := 0
  cs : Nat := 0
  ss : Nat := 0
  ds : Nat := 0
  deriving DecidableEq, Repr

/-- Raw word of a main register (`regs[r as usize]`).  Only ever applied to
the ten main registers; the sub-register cases are unreachable at every
call site (all go through `as_sub_register` or a `Full` assertion). -/
def getMain (st : RegState) : Register → Nat
  | .Ax => st.ax | .Bx => st.bx | .Cx => st.cx | .Dx => st.dx
  | .Si => st.si | .Di => st.di | .Sp => st.sp | .Bp => st.bp
  | .Ip => st.ip | .Flags => st.flags
  | _ => 0

/-- Store a raw word into a main register (`regs[r as usize] = v`).  As with
`getMain`, the sub-register cases are unreachable. -/
def setMain (st : RegState) (r : Register) (v : Nat) : RegState :=
  match r with
  | .Ax => { st with ax := v } | .Bx => { st with bx := v }
  | .Cx => { st with cx := v } | .Dx => { st with dx := v }
  | .Si => { st with si := v } | .Di => { st with di := v }
  | .Sp => { st with sp := v } | .Bp => { st with bp := v }
  | .Ip => { st with ip := v } | .Flags => { st with flags := v }
  | _ => st

/-- Value of a segment register (`segments[s as usize]`). -/
def getSeg (st : RegState) : SegmentRegister → Nat
  | .Es => st.es | .Cs => st.cs | .Ss => st.ss | .Ds => st.ds

/-- Store a value into a segment register. -/
def setSeg (st : RegState) (s : SegmentRegister) (v : Nat) : RegState :=
  match s with
  | .Es => { st with es := v } | .Cs => { st with cs := v }
  | .Ss => { st with ss := v } | .Ds => { st with ds := v }

/-- Flag bit masks of `EFlags`. -/
def eflagsCarry : Nat := 1
/-- Mask of the Parity flag (bit 2). -/
def eflagsParity : Nat := 4
/-- Mask of the Auxiliary flag (bit 4). -/
def eflagsAuxillary : Nat := 16
/-- Mask of the Zero flag (bit 6). -/
def eflagsZero : Nat := 64
/-- Mask of the Sign flag (bit 7). -/
def eflagsSign : Nat := 128
/-- Mask of the Overflow flag (bit 11). -/
def eflagsOverflow : Nat := 2048

/-- Test a flag in the FLAGS register (`regs[Flags] & mask > 0`). -/
def flagSet (st : RegState) (mask : Nat) : Prop := getMain st .Flags &&& mask > 0

instance (st : RegState) (mask : Nat) : Decidable (flagSet st mask) := by
  unfold flagSet; infer_instance

/-- Read a register, masking to the named sub-register half
(`Emulator::get_register_value`). -/
def getRegisterValue (st : RegState) (r : Register) : Nat :=
  let p := r.asSubRegister
  let v := getMain st p.1
  match p.2 with
  | .Full => v
  | .Low => v &&& 0xff
  | .High => (v &&& 0xff00) >>> 8

/-- Write a register (`Emulator::set_register_value`).  The `Low`/`High`
branches assert `imm & 0x100 == 0`; a failing assertion (a Rust panic) is
modelled as `none`.  The `imm << 8` of the `High` branch is a `u16` shift
and therefore keeps only the low 16 bits. -/
def setRegisterValue (st : RegState) (dest : Register) (imm : Nat) :
    Option RegState :=
  let p := dest.asSubRegister
  match p.2 with
  | .Full => some (setMain st p.1 imm)
  | .Low =>
    if imm &&& 0x100 = 0 then
      some (setMain st p.1 ((getMain st p.1 &&& 0xff00) ||| (imm &&& 0xff)))
    else none
  | .High =>
    if imm &&& 0x100 = 0 then
      some (setMain st p.1 ((getMain st p.1 &&& 0x00ff) ||| ((imm <<< 8) % 65536)))
    else none

/-- The FLAGS word computed by `Emulator::set_status_flags` from the result
`val` and the two source arguments. -/
def statusFlagsWord (val arg1 arg2 : Nat) : Nat :=
  let nf0 := 0
  let nf1 := if val = 0 then nf0 ||| eflagsZero else nf0
  let nf2 := if val &&& 0x8000 > 0 then nf1 ||| eflagsSign else nf1
  let nf3 := if arg1 &&& 0x8000 > 0 ∧ arg2 &&& 0x8000 > 0 ∧ val &&& 0x8000 = 0 then
    nf2 ||| eflagsOverflow else nf2
  let nf4 := if arg1 &&& 0x8000 = 0 ∧ arg2 &&& 0x8000 = 0 ∧ val &&& 0x8000 > 0 then
    nf3 ||| eflagsCarry else nf3
  let nf5 := if countOnes (val &&& 0xff) % 2 = 0 then nf4 ||| eflagsParity else nf4
  let nf6 := if arg1 &&& 0x80 = 0 ∧ arg2 &&& 0x80 = 0 ∧ val &&& 0x80 > 0 then
    nf5 ||| eflagsAuxillary else nf5
  nf6

/-- Overwrite the FLAGS register with the synthesized word
(`Emulator::set_status_flags`). -/
def setStatusFlags (st : RegState) (val arg1 arg2 : Nat) : RegState :=
  setMain st .Flags (statusFlagsWord val arg1 arg2)

/-- Wrapping 16-bit addition (`u16::wrapping_add`). -/
def wadd16 (a b : Nat) : Nat := (a + b) % 65536

/-- Linear address of a memory operand (`Emulator::get_memory_address`):
start from the direct address (or 0), add the base registers with 16-bit
`u16` arithmetic, then `wrapping_add_signed` the displacement.  The
recorded segment override is never consulted. -/
def getMemoryAddress (st : RegState) (m : MemoryOperand) : Nat :=
  let a0 := m.address.getD 0
  let a1 := match m.reg0 with
    | some r => wadd16 a0 (getRegisterValue st r)
    | none => a0
  let a2 := match m.reg1 with
    | some r => wadd16 a1 (getRegisterValue st r)
    | none => a1
  match m.displacement with
  | some d => u16AddSigned a2 d
  | none => a2

/-- Tail of the executor's general Sub arm: compute `wrapping_sub`, write
the destination register, then synthesize flags. -/
def subWriteThenFlags (st : RegState) (dest : Register) (dv sv : Nat) :
    Option RegState :=
  let nv := wsub16 dv sv
  match setRegisterValue st dest nv with
  | none => none
  | some st1 => some (setStatusFlags st1 nv dv sv)

/-- Tail of the executor's Add arm: compute `wrapping_add`, write the
destination register, then synthesize flags. -/
def addWriteThenFlags (st : RegState) (dest : Register) (dv sv : Nat) :
    Option RegState :=
  let nv := wadd16 dv sv
  match setRegisterValue st dest nv with
  | none => none
  | some st1 => some (setStatusFlags st1 nv dv sv)

/-- One step of the scalar executor (`Emulator::execute`) on the register
file.  Arms are in source order.  A Rust panic (`panic!`, `unimplemented!`,
`unreachable!`, a failed assertion) is `none`.  The arms that touch the
emulated byte memory (memory-operand movs, `read_memory` sources) operate
on state outside `RegState` and are outside the scope of this model; they
are conservatively mapped to `none` and no theorem below mentions them. -/
def executeInstr (st : RegState) : Instruction → Option RegState
  | .Mov (.register dest) (.immediate imm) =>
    setRegisterValue st dest (u16ofI imm)
  | .Mov (.register dest) (.register src) =>
    setRegisterValue st dest (getRegisterValue st src)
  | .Mov (.segmentRegister dest) (.register src) =>
    let p := src.asSubRegister
    if p.2 = SubRegister.Full then some (setSeg st dest (getMain st p.1))
    else none
  | .Mov (.register dest) (.segmentRegister src) =>
    let p := dest.asSubRegister
    if p.2 = SubRegister.Full then some (setMain st dest (getSeg st src))
    else none
  | .Mov (.memory _) _ => none
  | .Mov (.register _) (.memory _) => none
  | .Sub (.register dest) (.register src) =>
    let dv := getRegisterValue st dest
    let sv := getRegisterValue st src
    let nv := wsub16 dv sv
    -- set the status flags based on the resulting value, then the register
    let st1 := setStatusFlags st nv dv sv
    setRegisterValue st1 dest nv
  | .Sub (.register dest) src =>
    let dv := getRegisterValue st dest
    match src with
    | .register s => subWriteThenFlags st dest dv (getRegisterValue st s)
    | .immediate imm => subWriteThenFlags st dest dv (u16ofI imm)
    | _ => none
  | .Add (.register dest) src =>
    let dv := getRegisterValue st dest
    match src with
    | .register s => addWriteThenFlags st dest dv (getRegisterValue st s)
    | .immediate imm => addWriteThenFlags st dest dv (u16ofI imm)
    | _ => none
  | .Cmp left right =>
    match left with
    | .register dest =>
      let dv := getRegisterValue st dest
      match right with
      | .register s => some (setStatusFlags st (wsub16 dv (getRegisterValue st s))
          dv (getRegisterValue st s))
      | .immediate imm => some (setStatusFlags st (wsub16 dv (u16ofI imm))
          dv (u16ofI imm))
      | _ => none
    | _ => none
  | .JumpNotEqual offset =>
    if ¬ flagSet st eflagsZero then
      setRegisterValue st .Ip (u16AddSigned (getMain st .Ip) (offset - 2))
    else some st
  | .JumpEqual offset =>
    if flagSet st eflagsZero then
      setRegisterValue st .Ip (u16AddSigned (getMain st .Ip) (offset - 2))
    else some st
  | .JumpBelow offset =>
    if flagSet st eflagsCarry then
      setRegisterValue st .Ip (u16AddSigned (getMain st .Ip) (offset - 2))
    else some st
  | .Loop offset =>
    let newCx := getMain st .Cx - 1
    match setRegisterValue st .Cx newCx with
    | none => none
    | some st1 =>
      if newCx ≠ 0 then
        setRegisterValue st1 .Ip (u16AddSigned (getMain st1 .Ip) (offset - 2))
      else some st1
  | .LoopWhileNotZero offset =>
    -- the source arm is identical to Loop: the zero flag is never consulted
    let newCx := getMain st .Cx - 1
    match setRegisterValue st .Cx newCx with
    | none => none
    | some st1 =>
      if newCx ≠ 0 then
        setRegisterValue st1 .Ip (u16AddSigned (getMain st1 .Ip) (offset - 2))
      else some st1
  | .JumpParityEven offset =>
    if flagSet st eflagsParity then
      setRegisterValue st .Ip (u16AddSigned (getMain st .Ip) (offset - 2))
    else some st
  | _ => none

/-! ## Textual display (`Display` impls in `register.rs` / `instruction.rs`) -/

/-- Lowercase register name. -/
def regToString : Register → String
  | .Ax => "ax" | .Al => "al" | .Ah => "ah"
  | .Bx => "bx" | .Bl => "bl" | .Bh => "bh"
  | .Cx => "cx" | .Cl => "cl" | .Ch => "ch"
  | .Dx => "dx" | .Dl => "dl" | .Dh => "dh"
  | .Si => "si" | .Di => "di" | .Sp => "sp" | .Bp => "bp"
  | .Ip => "ip" | .Flags => "flags"

/-- Lowercase segment-register name. -/
def segToString : SegmentRegister → String
  | .Es => "es" | .Cs => "cs" | .Ss => "ss" | .Ds => "ds"

/-- Memory-size qualifier. -/
def memSizeToString : MemorySize → String
  | .Byte => "byte"
  | .Word => "word"

/-- Lowercase hex digit. -/
def hexDigitChar (n : Nat) : Char :=
  match n with
  | 0 => '0' | 1 => '1' | 2 => '2' | 3 => '3' | 4 => '4'
  | 5 => '5' | 6 => '6' | 7 => '7' | 8 => '8' | 9 => '9'
  | 10 => 'a' | 11 => 'b' | 12 => 'c' | 13 => 'd' | 14 => 'e'
  | _ => 'f'

/-- Hex digits of `n` (fuel-bounded; empty for 0). -/
def natHexAux : Nat → Nat → String
  | 0, _ => ""
  | fuel + 1, n =>
    if n = 0 then "" else natHexAux fuel (n / 16) ++ String.mk [hexDigitChar (n % 16)]

/-- Hex rendering of a natural number without prefix. -/
def natHex (n : Nat) : String := if n = 0 then "0" else natHexAux 8 n

/-- Rust `{:#x}` rendering of an unsigned value. -/
def hexLit (n : Nat) : String := "0x" ++ natHex n

/-- Rust `{:#x}` rendering of an `i16` value (formats the 16 raw bits). -/
def i16HexLit (x : Int) : String := hexLit (u16ofI x)

/-- Textual form of an operand (`Display for Operand`). -/
def operandToString (op : Operand) : String :=
  match op with
  | .register r => regToString r
  | .segmentRegister s => segToString s
  | .immediate i => i16HexLit i
  | .memory m =>
    let sizePart := match m.size with
      | some s => memSizeToString s ++ " "
      | none => ""
    let segPart := match m.segment with
      | some s => segToString s ++ ":"
      | none => ""
    match m.address with
    | some addr => sizePart ++ segPart ++ "[" ++ hexLit addr ++ "]"
    | none =>
      let regsPart := match m.reg0 with
        | some r1 =>
          regToString r1 ++ (match m.reg1 with
            | some r2 => " + " ++ regToString r2
            | none => "")
        | none => ""
      let dispPart := match m.displacement with
        | some d =>
          if d ≠ 0 then
            (if d < 0 then " - " else " + ") ++ hexLit (d.natAbs % 65536)
          else ""
        | none => ""
      sizePart ++ segPart ++ "[" ++ regsPart ++ dispPart ++ "]"

/-- Short-jump rendering: `name ${op}{offset}` with a `+` for non-negative
offsets and the offset in decimal. -/
def jumpText (name : String) (off : Int) : String :=
  name ++ " $" ++ (if 0 ≤ off then "+" else "") ++ toString off

/-- Repeat-prefix rendering used by the string-op display arms. -/
def repText : Option RepeatMode → String
  | some .WhileClearZeroFlag => "repne "
  | some .WhileSetZeroFlag => "repe "
  | none => ""

/-- Textual form of an instruction (`Display for Instruction`). -/
def instrToString (i : Instruction) : String :=
  match i with
  | .Mov dest src => "mov " ++ operandToString dest ++ ", " ++ operandToString src
  | .Push src => "push " ++ operandToString src
  | .Pop src => "pop " ++ operandToString src
  | .Xchg l r => "xchg " ++ operandToString l ++ ", " ++ operandToString r
  | .Nop => "nop"
  | .In dest src => "in " ++ regToString dest ++ ", " ++ operandToString src
  | .Out dest src => "out " ++ operandToString dest ++ ", " ++ regToString src
  | .Xlat => "xlat"
  | .Lea dest src => "lea " ++ operandToString dest ++ ", " ++ operandToString src
  | .Lds dest src => "lds " ++ operandToString dest ++ ", " ++ operandToString src
  | .Les dest src => "les " ++ operandToString dest ++ ", " ++ operandToString src
  | .Lahf => "lahf"
  | .Sahf => "sahf"
  | .Pushf => "pushf"
  | .Popf => "popf"
  | .Add dest src => "add " ++ operandToString dest ++ ", " ++ operandToString src
  | .And dest src => "and " ++ operandToString dest ++ ", " ++ operandToString src
  | .Test dest src => "test " ++ operandToString dest ++ ", " ++ operandToString src
  | .Or dest src => "or " ++ operandToString dest ++ ", " ++ operandToString src
  | .Xor dest src => "xor " ++ operandToString dest ++ ", " ++ operandToString src
  | .Adc dest src => "adc " ++ operandToString dest ++ ", " ++ operandToString src
  | .Inc src => "inc " ++ operandToString src
  | .Dec src => "dec " ++ operandToString src
  | .Aaa => "aaa"
  | .Daa => "daa"
  | .Aas => "aas"
  | .Das => "das"
  | .Aam => "aam"
  | .Aad => "aad"
  | .Sub dest src => "sub " ++ operandToString dest ++ ", " ++ operandToString src
  | .Sbb dest src => "sbb " ++ operandToString dest ++ ", " ++ operandToString src
  | .Mul src => "mul " ++ operandToString src
  | .Imul src => "imul " ++ operandToString src
  | .Div src => "div " ++ operandToString src
  | .Idiv src => "idiv " ++ operandToString src
  | .Cmp l r => "cmp " ++ operandToString l ++ ", " ++ operandToString r
  | .Neg src => "neg " ++ operandToString src
  | .Cbw => "cbw"
  | .Cwd => "cwd"
  | .Not src => "not " ++ operandToString src
  | .Shl src count => "shl " ++ operandToString src ++ ", " ++ operandToString count
  | .Sar src count => "sar " ++ operandToString src ++ ", " ++ operandToString count
  | .Shr src count => "shr " ++ operandToString src ++ ", " ++ operandToString count
  | .Rol src count => "rol " ++ operandToString src ++ ", " ++ operandToString count
  | .Ror src count => "ror " ++ operandToString src ++ ", " ++ operandToString count
  | .Rcl src count => "rcl " ++ operandToString src ++ ", " ++ operandToString count
  | .Rcr src count => "rcr " ++ operandToString src ++ ", " ++ operandToString count
  | .MoveByte rep => repText rep ++ "movsb"
  | .MoveWord rep => repText rep ++ "movsw"
  | .CmpByte rep => repText rep ++ "cmpsb"
  | .CmpWord rep => repText rep ++ "cmpsw"
  | .ScanByte rep => repText rep ++ "scasb"
  | .ScanWord rep => repText rep ++ "scasw"
  | .LoadByte rep => repText rep ++ "lodsb"
  | .LoadWord rep => repText rep ++ "lodsw"
  | .StoreByte rep => repText rep ++ "stosb"
  | .StoreWord rep => repText rep ++ "stosw"
  | .Call dest => "call " ++ operandToString dest
  | .Jump dest => "jmp " ++ operandToString dest
  | .ReturnWithOffset offset => "ret " ++ i16HexLit offset
  | .Return => "ret"
  | .JumpEqual off => jumpText "je" off
  | .JumpLessThan off => jumpText "jl" off
  | .JumpLessThanEqual off => jumpText "jle" off
  | .JumpBelow off => jumpText "jb" off
  | .JumpBelowEqual off => jumpText "jbe" off
  | .JumpParityEven off => jumpText "jp" off
  | .JumpParityOdd off => jumpText "jnp" off
  | .JumpNotOverflow off => jumpText "jno" off
  | .JumpNotSign off => jumpText "jns" off
  | .JumpOverflow off => jumpText "jo" off
  | .JumpSign off => jumpText "js" off
  | .JumpNotEqual off => jumpText "jne" off
  | .JumpNotLessThan off => jumpText "jnl" off
  | .JumpNotLessThanEqual off => jumpText "jnle" off
  | .JumpNotBelow off => jumpText "jnb" off
  | .JumpNotBelowEqual off => jumpText "jnbe" off
  | .Loop off => jumpText "loop" off
  | .LoopWhileZero off => jumpText "loope" off
  | .LoopWhileNotZero off => jumpText "loopne" off
  | .JumpCxZero off => jumpText "jcxz" off
  | .Interrupt v => "int " ++ hexLit v
  | .InterruptOnOverflow => "into"
  | .InterruptReturn => "iret"
  | .ClearCarry => "clc"
  | .ComplementCarry => "cmc"
  | .SetCarry => "stc"
  | .ClearDirection => "cld"
  | .SetDirection => "std"
  | .ClearInterrupt => "cli"
  | .SetInterrupt => "sti"
  | .Halt => "hlt"
  | .Wait => "wait"
  | .Lock => "lock "

/-! ## EVEX assembler (`jit/src/evex.rs`) -/

/-- AVX-512 opcodes used by the JIT (`AvxOpcode`); zmm registers are bare
numbers. -/
inductive AvxOpcode where
  | Sub
  | Mov
  | Broadcast
  | Cmp
  | Add
  deriving DecidableEq, Repr

/-- Opcode byte (the enum discriminant in the Rust code). -/
def AvxOpcode.byte : AvxOpcode → Nat
  | .Sub => 0xF9
  | .Mov => 0x6F
  | .Broadcast => 0x7B
  | .Cmp => 0x3F
  | .Add => 0xFD

/-- Opcode-map selector field (`AvxOpcode::mmm`). -/
def AvxOpcode.mmm : AvxOpcode → Nat
  | .Sub => 1
  | .Mov => 1
  | .Broadcast => 2
  | .Cmp => 3
  | .Add => 1

/-- W-bit of the prefix (`AvxOpcode::is_wide`). -/
def AvxOpcode.isWide : AvxOpcode → Bool
  | .Cmp => true
  | .Mov => true
  | _ => false

/-- Whether a zmm register number needs the 4th bit (`Zmm::needs_4_bits`). -/
def zmmNeeds4 (z : Nat) : Bool := z &&& 8 ≠ 0

/-- Whether a zmm register number needs the 5th bit (`Zmm::needs_5_bits`). -/
def zmmNeeds5 (z : Nat) : Bool := z &&& 16 ≠ 0

/-- Numeric value of a boolean (`bool as u8`). -/
def boolBit (b : Bool) : Nat := if b then 1 else 0

/-- Assemble one EVEX-prefixed AVX-512 instruction into its bytes
(`evex`). -/
def evex (opcode : AvxOpcode) (op1 op2 : Nat) (op3 : Option Nat)
    (imm : Option Nat) : List Nat :=
  let hasThreeOps := op3.isSome
  -- (dst, src) => (dst, dst, src)
  let o2 := match op3 with
    | some _ => op2
    | none => op1
  let o3 := match op3 with
    | some v => v
    | none => op2
  let r := boolBit (!zmmNeeds4 op1)
  let x := boolBit (!zmmNeeds5 o3)
  let b := boolBit (!zmmNeeds4 o3)
  let rp := boolBit (!zmmNeeds5 op1)
  let p0 := (r <<< 7) ||| (x <<< 6) ||| (b <<< 5) ||| (rp <<< 4) ||| opcode.mmm
  let w := boolBit opcode.isWide
  let vvvv := if hasThreeOps then (o2 ^^^ 0xff) &&& 0xf else 0xf
  let p1 := (w <<< 7) ||| (vvvv <<< 3) ||| (1 <<< 2) ||| 1
  let vprime := if hasThreeOps then boolBit (!zmmNeeds5 o2) else 1
  let p2 := (2 <<< 5) ||| (vprime <<< 3)
  let modrm := (3 <<< 6) ||| ((op1 &&& 7) <<< 3) ||| (o3 &&& 7)
  match imm with
  | some im => [0x62, p0, p1, p2, opcode.byte, modrm, im]
  | none => [0x62, p0, p1, p2, opcode.byte, modrm]

/-- zmm number bound to a host general-purpose register
(`HostRegister::as_zmm`): `rax = 0`, …, `rsi = 6`. -/
def hostRsi : Nat := 6
/-- zmm number of host register `rax`. -/
def hostRax : Nat := 0

/-! ## Supporting lemmas -/

/-- A masked test against a single bit is positive exactly when the bit is
set. -/
lemma and_two_pow_pos_iff (n i : Nat) : 0 < n &&& 2 ^ i ↔ n.testBit i := by
  rw [Nat.and_two_pow]
  cases h : n.testBit i <;> simp [Nat.pos_pow_of_pos]

/-- A masked test against a single bit is zero exactly when the bit is
clear. -/
lemma and_two_pow_eq_zero_iff (n i : Nat) : n &&& 2 ^ i = 0 ↔ ¬ n.testBit i := by
  rw [Nat.and_two_pow]
  cases h : n.testBit i <;> simp [Nat.pos_pow_of_pos, Nat.pos_iff_ne_zero]

/-- Accumulating a mask under a condition is an or with the conditional
mask. -/
lemma ite_or_mask (c : Prop) [Decidable c] (x m : Nat) :
    (if c then x ||| m else x) = x ||| (if c then m else 0) := by
  split <;> simp

/-- Bit `k` of a conditional single-bit mask. -/
lemma testBit_ite_mask (c : Prop) [Decidable c] (p k : Nat) :
    (if c then (2 : Nat) ^ p else 0).testBit k = (decide c && decide (p = k)) := by
  split <;> simp_all [Nat.testBit_two_pow]

/-- The flag word of `set_status_flags`, written as the or of the masks of
the flags whose conditions hold (conditions phrased through `testBit`). -/
lemma statusFlagsWord_eq (val arg1 arg2 : Nat) :
    statusFlagsWord val arg1 arg2 =
      (if val = 0 then 2 ^ 6 else 0) |||
      (if val.testBit 15 then 2 ^ 7 else 0) |||
      (if arg1.testBit 15 ∧ arg2.testBit 15 ∧ ¬ val.testBit 15 then 2 ^ 11 else 0) |||
      (if ¬ arg1.testBit 15 ∧ ¬ arg2.testBit 15 ∧ val.testBit 15 then 2 ^ 0 else 0) |||
      (if countOnes (val % 256) % 2 = 0 then 2 ^ 2 else 0) |||
      (if ¬ arg1.testBit 7 ∧ ¬ arg2.testBit 7 ∧ val.testBit 7 then 2 ^ 4 else 0) := by
  simp only [statusFlagsWord, eflagsZero, eflagsSign, eflagsOverflow, eflagsCarry,
    eflagsParity, eflagsAuxillary]
  simp only [show (32768 : Nat) = 2 ^ 15 from rfl, show (128 : Nat) = 2 ^ 7 from rfl,
    show (255 : Nat) = 2 ^ 8 - 1 from rfl, and_two_pow_pos_iff, and_two_pow_eq_zero_iff,
    Nat.and_pow_two_sub_one_eq_mod]
  simp only [ite_or_mask, Nat.zero_or]
  norm_num

/-- Unfolding of `decodeInstruction` to its first opcode dispatch. -/
lemma decodeInstruction_via_arm (mem : List Nat) (ip : Nat) :
    decodeInstruction mem ip =
      match decodeArm mem ip ip none with
      | .ok (.moreSeg sr) => decodeLoop mem ip (some sr) 1 mem.length
      | .ok (.done i size) => .ok (i, (ip + size) % 65536)
      | .error e => .error e := by
  unfold decodeInstruction
  simp only [decodeLoop, Nat.add_zero, Nat.zero_add]

/-- Constructor of the string instruction selected by a string-op opcode
byte after a repeat prefix (the inner match of the repeat arm), if any. -/
def strRepCtor (op : Nat) : Option (Option RepeatMode → Instruction) :=
  if op = 0xA4 then some .MoveByte else if op = 0xA5 then some .MoveWord
  else if op = 0xA6 then some .CmpByte else if op = 0xA7 then some .CmpWord
  else if op = 0xAE then some .ScanByte else if op = 0xAF then some .ScanWord
  else if op = 0xAC then some .LoadByte else if op = 0xAD then some .LoadWord
  else if op = 0xAA then some .StoreByte else if op = 0xAB then some .StoreWord
  else none

/-- The repeat-prefix bytes (`0xF2`/`0xF3`) dispatch into the repeat arm:
every earlier arm condition of the opcode match excludes them. -/
lemma decodeArm_repeat (mem : List Nat) (pos addr0 : Nat)
    (seg : Option SegmentRegister) (b : Nat) (hr : 0xF2 ≤ b ∧ b ≤ 0xF3)
    (h0 : readByte mem pos = .ok b) :
    decodeArm mem pos addr0 seg = armRepeatStr mem pos addr0 b := by
  unfold decodeArm
  rw [h0]
  split
  next heq => exact absurd heq (by simp)
  next b0 heq =>
    injection heq with heq
    subst heq
    rw [if_neg (by omega)]
    repeat rw [if_neg (by omega)]
    rw [if_pos (by omega)]

/-! ## Claim theorems -/

/-- C1: for the flag word synthesized by `set_status_flags` from
`(result val, arg1, arg2)`: Zero (bit 6) is set iff the result is 0; Sign
(bit 7) iff bit 15 of the result is 1; Parity (bit 2) iff the popcount of
the low byte of the result is even; Carry (bit 0) iff bit 15 of both
arguments is 0 and bit 15 of the result is 1; Overflow (bit 11) iff bit 15
of both arguments is 1 and bit 15 of the result is 0; Auxiliary (bit 4) iff
bit 7 of both arguments is 0 and bit 7 of the result is 1 — with the masks
at the 8086 positions Carry=0, Parity=2, Auxiliary=4, Zero=6, Sign=7,
Overflow=11. -/
theorem set_status_flags_bit_conditions (val arg1 arg2 : Nat) :
    ((statusFlagsWord val arg1 arg2).testBit 6 ↔ val = 0) ∧
    ((statusFlagsWord val arg1 arg2).testBit 7 ↔ val.testBit 15) ∧
    ((statusFlagsWord val arg1 arg2).testBit 2 ↔ countOnes (val % 256) % 2 = 0) ∧
    ((statusFlagsWord val arg1 arg2).testBit 0 ↔
      ¬ arg1.testBit 15 ∧ ¬ arg2.testBit 15 ∧ val.testBit 15) ∧
    ((statusFlagsWord val arg1 arg2).testBit 11 ↔
      arg1.testBit 15 ∧ arg2.testBit 15 ∧ ¬ val.testBit 15) ∧
    ((statusFlagsWord val arg1 arg2).testBit 4 ↔
      ¬ arg1.testBit 7 ∧ ¬ arg2.testBit 7 ∧ val.testBit 7) ∧
    eflagsCarry = 2 ^ 0 ∧ eflagsParity = 2 ^ 2 ∧ eflagsAuxillary = 2 ^ 4 ∧
    eflagsZero = 2 ^ 6 ∧ eflagsSign = 2 ^ 7 ∧ eflagsOverflow = 2 ^ 11 := by
  rw [statusFlagsWord_eq]
  refine ⟨?_, ?_, ?_, ?_, ?_, ?_, rfl, rfl, rfl, rfl, rfl, rfl⟩ <;>
    simp only [Nat.testBit_or, testBit_ite_mask, Nat.zero_testBit] <;> simp

/-- C10: after `set_status_flags` the FLAGS register is exactly the or of
the masks of the flags whose conditions hold: every bit outside positions
{0, 2, 4, 6, 7, 11} is zero, and the result does not depend on the previous
register state (in particular no bit of the old FLAGS value survives). -/
theorem set_status_flags_exact_or (val arg1 arg2 : Nat) :
    (statusFlagsWord val arg1 arg2 =
      (if val = 0 then eflagsZero else 0) |||
      (if val.testBit 15 then eflagsSign else 0) |||
      (if arg1.testBit 15 ∧ arg2.testBit 15 ∧ ¬ val.testBit 15 then eflagsOverflow
        else 0) |||
      (if ¬ arg1.testBit 15 ∧ ¬ arg2.testBit 15 ∧ val.testBit 15 then eflagsCarry
        else 0) |||
      (if countOnes (val % 256) % 2 = 0 then eflagsParity else 0) |||
      (if ¬ arg1.testBit 7 ∧ ¬ arg2.testBit 7 ∧ val.testBit 7 then eflagsAuxillary
        else 0)) ∧
    (∀ k, k ≠ 0 → k ≠ 2 → k ≠ 4 → k ≠ 6 → k ≠ 7 → k ≠ 11 →
      (statusFlagsWord val arg1 arg2).testBit k = false) ∧
    (∀ st1 st2 : RegState,
      getMain (setStatusFlags st1 val arg1 arg2) .Flags =
        getMain (setStatusFlags st2 val arg1 arg2) .Flags) := by
  refine ⟨by rw [statusFlagsWord_eq]; rfl, ?_, fun st1 st2 => rfl⟩
  intro k h0 h2 h4 h6 h7 h11
  rw [statusFlagsWord_eq]
  simp only [Nat.testBit_or, testBit_ite_mask, Nat.zero_testBit]
  simp [h0.symm, h2.symm, h4.symm, h6.symm, h7.symm, h11.symm]

/-- C8: the EVEX assembler produces the exact specified bytes for all seven
fixture instructions. -/
theorem evex_fixture_bytes :
    evex .Sub 1 2 (some 1) none = [0x62, 0xF1, 0x6D, 0x48, 0xF9, 0xC9] ∧
    evex .Add 1 2 (some 1) none = [0x62, 0xF1, 0x6D, 0x48, 0xFD, 0xC9] ∧
    evex .Cmp 1 8 (some 7) (some 0) = [0x62, 0xF3, 0xBD, 0x48, 0x3F, 0xCF, 0x00] ∧
    evex .Broadcast 1 hostRsi none none = [0x62, 0xF2, 0x7D, 0x48, 0x7B, 0xCE] ∧
    evex .Broadcast 1 hostRax none none = [0x62, 0xF2, 0x7D, 0x48, 0x7B, 0xC8] ∧
    evex .Mov 1 2 none none = [0x62, 0xF1, 0xFD, 0x48, 0x6F, 0xCA] ∧
    evex .Mov 2 1 none none = [0x62, 0xF1, 0xFD, 0x48, 0x6F, 0xD1] := by
  decide

/-- C9: for a memory operand with two base registers and a displacement and
no direct address, the linear address is the 16-bit wrap of
`(read b1) + (read b2) + d`; a direct-address operand (no bases, no
displacement) yields its address unchanged; and the recorded segment
override never changes the computed address. -/
theorem get_memory_address_formula :
    (∀ (st : RegState) (b1 b2 : Register) (d : Int) (sz : Option MemorySize)
      (sg : Option SegmentRegister),
      getMemoryAddress st
        { reg0 := some b1, reg1 := some b2, displacement := some d, size := sz
          address := none, segment := sg } =
      ((((getRegisterValue st b1 : Int) + (getRegisterValue st b2 : Int) + d) %
        65536)).toNat) ∧
    (∀ (st : RegState) (a : Nat) (sz : Option MemorySize)
      (sg : Option SegmentRegister),
      getMemoryAddress st
        { reg0 := none, reg1 := none, displacement := none, size := sz
          address := some a, segment := sg } = a) ∧
    (∀ (st : RegState) (m : MemoryOperand) (s1 s2 : Option SegmentRegister),
      getMemoryAddress st { m with segment := s1 } =
        getMemoryAddress st { m with segment := s2 }) := by
  refine ⟨?_, fun st a sz sg => rfl, fun st m s1 s2 => rfl⟩
  intro st b1 b2 d sz sg
  simp only [getMemoryAddress, wadd16, u16AddSigned, Option.getD]
  push_cast
  omega

/-- C5 counterexample: the claim "a Low or High write panics whenever
`v > 0xFF`" is false — the executor's assertion only checks bit 8, so
writing `0x200` to `AL` does not panic; it stores low byte 0 and leaves the
high byte of `AX` unchanged. -/
theorem set_register_value_no_panic_at_0x200 :
    (0x200 : Nat) > 0xFF ∧
    setRegisterValue { ax := 0x1234 } .Al 0x200 = some { ax := 0x1200 } := by
  exact ⟨by norm_num, by decide⟩

/-- A low-half merge leaves the high byte of the old word intact. -/
lemma lowWrite_hi (a b : Nat) :
    ((a &&& 0xff00) ||| (b &&& 0xff)) &&& 0xff00 = a &&& 0xff00 := by
  apply Nat.eq_of_testBit_eq
  intro k
  simp only [show (0xff00 : Nat) = (2 ^ 8 - 1) <<< 8 by decide,
    show (0xff : Nat) = 2 ^ 8 - 1 from rfl, Nat.testBit_or, Nat.testBit_and,
    Nat.testBit_shiftLeft, Nat.testBit_two_pow_sub_one]
  by_cases h8 : 8 ≤ k
  · have hk : ¬ k < 8 := by omega
    by_cases h16 : k - 8 < 8 <;> simp [h8, hk, h16]
  · have hk : k < 8 := by omega
    simp [h8, hk]

/-- A low-half merge stores exactly the low byte of the new value. -/
lemma lowWrite_lo (a b : Nat) :
    ((a &&& 0xff00) ||| (b &&& 0xff)) &&& 0xff = b &&& 0xff := by
  apply Nat.eq_of_testBit_eq
  intro k
  simp only [show (0xff00 : Nat) = (2 ^ 8 - 1) <<< 8 by decide,
    show (0xff : Nat) = 2 ^ 8 - 1 from rfl, Nat.testBit_or, Nat.testBit_and,
    Nat.testBit_shiftLeft, Nat.testBit_two_pow_sub_one]
  by_cases h8 : 8 ≤ k
  · have hk : ¬ k < 8 := by omega
    by_cases h16 : k - 8 < 8 <;> simp [h8, hk, h16]
  · have hk : k < 8 := by omega
    simp [h8, hk]

/-- A high-half merge leaves the low byte of the old word intact. -/
lemma highWrite_lo (a b : Nat) :
    ((a &&& 0xff) ||| ((b &&& 0xff) <<< 8)) &&& 0xff = a &&& 0xff := by
  apply Nat.eq_of_testBit_eq
  intro k
  simp only [show (0xff : Nat) = 2 ^ 8 - 1 from rfl, Nat.testBit_or, Nat.testBit_and,
    Nat.testBit_shiftLeft, Nat.testBit_two_pow_sub_one]
  by_cases h8 : 8 ≤ k
  · have hk : ¬ k < 8 := by omega
    simp [h8, hk]
  · have hk : k < 8 := by omega
    simp [h8, hk]

/-- A high-half merge stores exactly the low byte of the new value in the
high byte. -/
lemma highWrite_hi (a b : Nat) :
    ((a &&& 0xff) ||| ((b &&& 0xff) <<< 8)) >>> 8 = b &&& 0xff := by
  apply Nat.eq_of_testBit_eq
  intro k
  simp only [show (0xff : Nat) = 2 ^ 8 - 1 from rfl, Nat.testBit_or, Nat.testBit_and,
    Nat.testBit_shiftLeft, Nat.testBit_shiftRight, Nat.testBit_two_pow_sub_one]
  by_cases hk : k < 8
  · have h1 : ¬ 8 + k < 8 := by omega
    have h2 : 8 ≤ 8 + k := by omega
    have h3 : 8 + k - 8 = k := by omega
    simp [hk, h1, h2, h3]
  · have h3 : ¬ 8 + k - 8 < 8 := by omega
    have h1 : ¬ 8 + k < 8 := by omega
    simp [hk, h1, h3]

/-- A 16-bit shift-left by 8 keeps only the low byte of the operand. -/
lemma shl8_mod (w : Nat) : (w <<< 8) % 65536 = (w &&& 0xff) <<< 8 := by
  simp only [Nat.shiftLeft_eq, show (0xff : Nat) = 2 ^ 8 - 1 from rfl,
    Nat.and_pow_two_sub_one_eq_mod]
  norm_num
  omega

/-- C5 amended: writing a `Full` register stores the value unchanged; a
`Low` or `High` write panics iff bit 8 of the value is set (`v & 0x100 ≠ 0`,
not `v > 0xFF`); a non-panicking `Low` write preserves the high byte and
stores `v & 0xFF`; a non-panicking `High` write preserves the low byte and
stores `(v & 0xFF) << 8` — so no sub-register write changes bits outside
the named half. -/
theorem set_register_value_characterization (st : RegState) (r m : Register)
    (v : Nat) :
    (r.asSubRegister = (m, .Full) →
      setRegisterValue st r v = some (setMain st m v)) ∧
    (r.asSubRegister = (m, .Low) →
      (setRegisterValue st r v = none ↔ v &&& 0x100 ≠ 0) ∧
      ∀ st2, setRegisterValue st r v = some st2 →
        getMain st2 m = (getMain st m &&& 0xff00) ||| (v &&& 0xff) ∧
        getMain st2 m &&& 0xff00 = getMain st m &&& 0xff00 ∧
        getMain st2 m &&& 0xff = v &&& 0xff) ∧
    (r.asSubRegister = (m, .High) →
      (setRegisterValue st r v = none ↔ v &&& 0x100 ≠ 0) ∧
      ∀ st2, setRegisterValue st r v = some st2 →
        getMain st2 m = (getMain st m &&& 0xff) ||| ((v &&& 0xff) <<< 8) ∧
        getMain st2 m &&& 0xff = getMain st m &&& 0xff ∧
        getMain st2 m >>> 8 = v &&& 0xff) := by
  cases r <;> refine ⟨fun h => ?_, fun h => ?_, fun h => ?_⟩ <;>
    simp only [Register.asSubRegister, Prod.mk.injEq] at h <;>
    first
    | exact absurd h.2 (fun heq => SubRegister.noConfusion heq)
    | (obtain ⟨rfl, -⟩ := h
       first
       | rfl
       | (refine ⟨?_, fun st2 h2 => ?_⟩
          · by_cases hv : v &&& 256 = 0 <;>
              simp [setRegisterValue, Register.asSubRegister, hv]
          · by_cases hv : v &&& 256 = 0
            · simp only [setRegisterValue, Register.asSubRegister, hv, if_pos,
                Option.some.injEq] at h2
              subst h2
              exact ⟨rfl, lowWrite_hi _ _, lowWrite_lo _ _⟩
            · simp [setRegisterValue, Register.asSubRegister, hv] at h2)
       | (refine ⟨?_, fun st2 h2 => ?_⟩
          · by_cases hv : v &&& 256 = 0 <;>
              simp [setRegisterValue, Register.asSubRegister, hv]
          · by_cases hv : v &&& 256 = 0
            · simp only [setRegisterValue, Register.asSubRegister, hv, if_pos,
                Option.some.injEq] at h2
              subst h2
              rw [shl8_mod]
              exact ⟨rfl, highWrite_lo _ _, highWrite_hi _ _⟩
            · simp [setRegisterValue, Register.asSubRegister, hv] at h2))

/-- Witness for the sub-register write characterization: instantiated at a
Low write of 5 into `AL` over `AX = 0x1234`. -/
theorem set_register_value_characterization_witness :
    Register.asSubRegister .Al = (Register.Ax, SubRegister.Low) ∧
    (setRegisterValue { ax := 0x1234 } .Al 5 = none ↔ (5 : Nat) &&& 0x100 ≠ 0) :=
  ⟨rfl, ((set_register_value_characterization { ax := 0x1234 } .Al .Ax 5).2.1 rfl).1⟩

/-- C4: evaluation of the executor at the state `CX = 2`, `IP = 10`, Zero
flag set.  `LoopWhileNotZero` (LOOPNZ) takes the jump even though ZF is set
— the arm never consults the zero flag — while the claim requires ZF clear
for the jump.  The plain `Loop` behaviour (decrement CX saturating, jump
iff the new CX is non-zero) is as claimed, and `LoopWhileZero` (LOOPZ) is
not executable at all (the executor panics). -/
theorem loop_executor_evaluation :
    flagSet ({ cx := 2, flags := 64, ip := 10 } : RegState) eflagsZero ∧
    executeInstr { cx := 2, flags := 64, ip := 10 } (.LoopWhileNotZero 5)
      = some { cx := 1, flags := 64, ip := 13 } ∧
    executeInstr { cx := 2, flags := 64, ip := 10 } (.Loop 5)
      = some { cx := 1, flags := 64, ip := 13 } ∧
    executeInstr { cx := 1, flags := 0, ip := 10 } (.Loop 5)
      = some { cx := 0, flags := 0, ip := 10 } ∧
    executeInstr { cx := 0, flags := 0, ip := 10 } (.Loop 5)
      = some { cx := 0, flags := 0, ip := 10 } ∧
    executeInstr ({ cx := 2, flags := 64, ip := 10 } : RegState) (.LoopWhileZero 5)
      = none := by
  refine ⟨by decide, by decide, by decide, by decide, by decide, by decide⟩

/-- C3: evaluation of the decoder on immediate-to-register/memory byte
streams.  For `0x83 0xC0 0x05` (`add ax, 5`, `w=1 s=1`) and
`0xC6 0xC0 0x05` (`mov al, 5`, `w=0`) the decoded immediate is the
`0xdead` placeholder (`-8531` as a signed 16-bit value), not the consumed
immediate byte 5; only the `w=1 s=0` form (`0x81`, and `0xC7`) decodes its
little-endian immediate bytes. -/
theorem decode_immediate_placeholder :
    decodeInstruction [0x83, 0xC0, 0x05] 0
      = .ok (.Add (.register .Ax) (.immediate (-8531)), 3) ∧
    decodeInstruction [0xC6, 0xC0, 0x05] 0
      = .ok (.Mov (.register .Al) (.immediate (-8531)), 3) ∧
    decodeInstruction [0x81, 0xC0, 0x34, 0x12] 0
      = .ok (.Add (.register .Ax) (.immediate 4660), 4) ∧
    toI16 0xdead = -8531 ∧ (-8531 : Int) ≠ 5 :=
  ⟨rfl, rfl, rfl, by decide, by decide⟩

set_option maxHeartbeats 1600000 in
/-- C7: a repeat prefix (`0xF2`/`0xF3`) followed by a string-op opcode
decodes to that string instruction with `repeat = WhileZFSet` for `0xF3`
and `repeat = WhileZFClear` for `0xF2`; any other opcode after a repeat
prefix fails with `UnknownRepeatOpcode` naming that byte and the
instruction address; and the decoded `0xF3 0xA4` / `0xF2 0xA4`
instructions print as `repe movsb` / `repne movsb`. -/
theorem repeat_prefix_decode (mem : List Nat) (ip rep op : Nat)
    (hrep : rep = 0xF2 ∨ rep = 0xF3)
    (h0 : readByte mem ip = .ok rep) (h1 : readByte mem (ip + 1) = .ok op) :
    (∀ c, strRepCtor op = some c →
      decodeInstruction mem ip =
        .ok (c (some (if rep = 0xF3 then .WhileSetZeroFlag
          else .WhileClearZeroFlag)), (ip + 2) % 65536)) ∧
    (strRepCtor op = none →
      decodeInstruction mem ip = .error (.unknownRepeatOpcode op ip)) ∧
    instrToString (.MoveByte (some .WhileSetZeroFlag)) = "repe movsb" ∧
    instrToString (.MoveByte (some .WhileClearZeroFlag)) = "repne movsb" := by
  refine ⟨?_, ?_, rfl, rfl⟩ <;>
    rw [decodeInstruction_via_arm] <;>
    rcases hrep with rfl | rfl
  · intro c hc
    rw [decodeArm_repeat mem ip ip none 0xF2 (by omega) h0]
    unfold strRepCtor at hc
    split_ifs at hc <;> injection hc with hc <;> subst hc <;> subst_vars <;>
      simp [armRepeatStr, h1]
  · intro c hc
    rw [decodeArm_repeat mem ip ip none 0xF3 (by omega) h0]
    unfold strRepCtor at hc
    split_ifs at hc <;> injection hc with hc <;> subst hc <;> subst_vars <;>
      simp [armRepeatStr, h1]
  · intro hc
    rw [decodeArm_repeat mem ip ip none 0xF2 (by omega) h0]
    unfold strRepCtor at hc
    split_ifs at hc <;> simp_all [armRepeatStr]
  · intro hc
    rw [decodeArm_repeat mem ip ip none 0xF3 (by omega) h0]
    unfold strRepCtor at hc
    split_ifs at hc <;> simp_all [armRepeatStr]

/-- Witness for the repeat-prefix claim: `0xF3 0xA4` decodes to
`movsb` with `repeat = WhileZFSet` advancing IP to 2, and `0xF3 0x90`
fails with `UnknownRepeatOpcode 0x90` at address 0. -/
theorem repeat_prefix_decode_witness :
    decodeInstruction [0xF3, 0xA4] 0
      = .ok (.MoveByte (some .WhileSetZeroFlag), 2 % 65536) ∧
    decodeInstruction [0xF3, 0x90] 0 = .error (.unknownRepeatOpcode 0x90 0) := by
  constructor
  · have h := (repeat_prefix_decode [0xF3, 0xA4] 0 0xF3 0xA4 (Or.inr rfl) rfl rfl).1
      Instruction.MoveByte rfl
    simpa using h
  · exact (repeat_prefix_decode [0xF3, 0x90] 0 0xF3 0x90 (Or.inr rfl) rfl rfl).2.1 rfl

/-- The jump/loop instruction selected by a short-jump opcode byte
(the inner dispatch of the short-jump arm); the trailing else is
`jcxz`, as in the arm. -/
def jumpInstrOf (b : Nat) (off : Int) : Instruction :=
  if b = 0x74 then .JumpEqual off
  else if b = 0x75 then .JumpNotEqual off
  else if b = 0x7C then .JumpLessThan off
  else if b = 0x7E then .JumpLessThanEqual off
  else if b = 0x72 then .JumpBelow off
  else if b = 0x76 then .JumpBelowEqual off
  else if b = 0x7A then .JumpParityEven off
  else if b = 0x70 then .JumpOverflow off
  else if b = 0x78 then .JumpSign off
  else if b = 0x7D then .JumpNotLessThan off
  else if b = 0x7F then .JumpNotLessThanEqual off
  else if b = 0x73 then .JumpNotBelow off
  else if b = 0x77 then .JumpNotBelowEqual off
  else if b = 0x7B then .JumpParityOdd off
  else if b = 0x71 then .JumpNotOverflow off
  else if b = 0x79 then .JumpNotSign off
  else if b = 0xE2 then .Loop off
  else if b = 0xE1 then .LoopWhileZero off
  else if b = 0xE0 then .LoopWhileNotZero off
  else .JumpCxZero off

/-- C2 counterexample: at displacement byte `0x7E` the stored offset is the
signed 8-bit wrap `-128`, not `(0x7E as i8) + 2 = 128`; and the decoded
`jl` instruction (condition held: Sign flag set, Overflow clear) is not
executable at all — the executor panics instead of adding the offset to
IP. -/
theorem short_jump_claim_counterexample :
    decodeInstruction [0x74, 0x7E] 0 = .ok (.JumpEqual (-128), 2) ∧
    toI8 0x7E + 2 = 128 ∧ ((-128 : Int) ≠ 128) ∧
    decodeInstruction [0x7C, 0x05] 0 = .ok (.JumpLessThan 7, 2) ∧
    flagSet ({ ip := 2, flags := 128 } : RegState) eflagsSign ∧
    ¬ flagSet ({ ip := 2, flags := 128 } : RegState) eflagsOverflow ∧
    executeInstr { ip := 2, flags := 128 } (.JumpLessThan 7) = none :=
  ⟨rfl, by decide, by decide, rfl, by decide, by decide, by decide⟩

set_option maxHeartbeats 1000000 in
/-- Short-jump opcode bytes dispatch into the short-jump arm: every earlier
arm condition of the opcode match excludes the two short-jump ranges. -/
lemma decodeArm_shortJump (mem : List Nat) (pos a0 : Nat)
    (seg : Option SegmentRegister) (b : Nat)
    (hr : (0x70 ≤ b ∧ b ≤ 0x7F) ∨ (0xE0 ≤ b ∧ b ≤ 0xE3))
    (h0 : readByte mem pos = .ok b) :
    decodeArm mem pos a0 seg = armShortJump mem pos b := by
  unfold decodeArm
  rw [h0]
  split
  next heq => exact absurd heq (by simp)
  next b0 heq =>
    injection heq with heq
    subst heq
    rw [if_neg (by omega)]
    repeat rw [if_neg (by omega)]
    rw [if_pos (by omega)]

/-- Evaluation of the short-jump arm: it returns the selected jump
instruction with stored offset `i8wrap ((d as i8) + 2)` and size 2. -/
lemma armShortJump_eval (mem : List Nat) (pos b d : Nat)
    (h1 : readByte mem (pos + 1) = .ok d) :
    armShortJump mem pos b
      = .ok (.done (jumpInstrOf b (i8wrap (toI8 d + 2))) 2) := by
  unfold armShortJump jumpInstrOf
  rw [h1]
  split
  next heq => exact absurd heq (by simp)
  next b1 heq =>
    injection heq with heq
    subst heq
    by_cases e0 : b = 0x74
    · simp only [if_pos e0]
    · simp only [if_neg e0]
      by_cases e1 : b = 0x75
      · simp only [if_pos e1]
      · simp only [if_neg e1]
        by_cases e2 : b = 0x7C
        · simp only [if_pos e2]
        · simp only [if_neg e2]
          by_cases e3 : b = 0x7E
          · simp only [if_pos e3]
          · simp only [if_neg e3]
            by_cases e4 : b = 0x72
            · simp only [if_pos e4]
            · simp only [if_neg e4]
              by_cases e5 : b = 0x76
              · simp only [if_pos e5]
              · simp only [if_neg e5]
                by_cases e6 : b = 0x7A
                · simp only [if_pos e6]
                · simp only [if_neg e6]
                  by_cases e7 : b = 0x70
                  · simp only [if_pos e7]
                  · simp only [if_neg e7]
                    by_cases e8 : b = 0x78
                    · simp only [if_pos e8]
                    · simp only [if_neg e8]
                      by_cases e9 : b = 0x7D
                      · simp only [if_pos e9]
                      · simp only [if_neg e9]
                        by_cases e10 : b = 0x7F
                        · simp only [if_pos e10]
                        · simp only [if_neg e10]
                          by_cases e11 : b = 0x73
                          · simp only [if_pos e11]
                          · simp only [if_neg e11]
                            by_cases e12 : b = 0x77
                            · simp only [if_pos e12]
                            · simp only [if_neg e12]
                              by_cases e13 : b = 0x7B
                              · simp only [if_pos e13]
                              · simp only [if_neg e13]
                                by_cases e14 : b = 0x71
                                · simp only [if_pos e14]
                                · simp only [if_neg e14]
                                  by_cases e15 : b = 0x79
                                  · simp only [if_pos e15]
                                  · simp only [if_neg e15]
                                    by_cases e16 : b = 0xE2
                                    · simp only [if_pos e16]
                                    · simp only [if_neg e16]
                                      by_cases e17 : b = 0xE1
                                      · simp only [if_pos e17]
                                      · simp only [if_neg e17]
                                        by_cases e18 : b = 0xE0
                                        · simp only [if_pos e18]
                                        · simp only [if_neg e18]

set_option maxHeartbeats 1000000 in
/-- C2 amended: every short-jump-family opcode (`0x70..0x7F`,
`0xE0..0xE3`) followed by a displacement byte `d` decodes to its
jump/loop instruction with stored offset the signed-8-bit wrap of
`(d as i8) + 2`, advancing IP by the two instruction bytes; of the
sixteen conditional jumps the executor implements exactly `je`, `jne`,
`jb` and `jp` — execution adds (stored offset − 2) to IP exactly when
the condition holds — while the other twelve conditional jumps are not
executable (the source panics; the model returns `none`); and
concretely `0x74 0x05` at IP 0 decodes to `je` with stored offset 7
printing as `je $+7`, execution leaves IP = 2 when ZF = 0 and sets
IP = 7 when ZF = 1. -/
theorem short_jump_decode_execute :
    (∀ (mem : List Nat) (ip b d : Nat),
      (0x70 ≤ b ∧ b ≤ 0x7F) ∨ (0xE0 ≤ b ∧ b ≤ 0xE3) →
      readByte mem ip = .ok b → readByte mem (ip + 1) = .ok d →
      decodeInstruction mem ip
        = .ok (jumpInstrOf b (i8wrap (toI8 d + 2)), (ip + 2) % 65536)) ∧
    (∀ (st : RegState) (off : Int),
      (flagSet st eflagsZero → executeInstr st (.JumpEqual off)
        = some (setMain st .Ip (u16AddSigned (getMain st .Ip) (off - 2)))) ∧
      (¬ flagSet st eflagsZero → executeInstr st (.JumpEqual off) = some st) ∧
      (¬ flagSet st eflagsZero → executeInstr st (.JumpNotEqual off)
        = some (setMain st .Ip (u16AddSigned (getMain st .Ip) (off - 2)))) ∧
      (flagSet st eflagsZero → executeInstr st (.JumpNotEqual off) = some st) ∧
      (flagSet st eflagsCarry → executeInstr st (.JumpBelow off)
        = some (setMain st .Ip (u16AddSigned (getMain st .Ip) (off - 2)))) ∧
      (flagSet st eflagsParity → executeInstr st (.JumpParityEven off)
        = some (setMain st .Ip (u16AddSigned (getMain st .Ip) (off - 2))))) ∧
    (∀ (st : RegState) (off : Int),
      executeInstr st (.JumpLessThan off) = none ∧
      executeInstr st (.JumpLessThanEqual off) = none ∧
      executeInstr st (.JumpBelowEqual off) = none ∧
      executeInstr st (.JumpOverflow off) = none ∧
      executeInstr st (.JumpSign off) = none ∧
      executeInstr st (.JumpNotLessThan off) = none ∧
      executeInstr st (.JumpNotLessThanEqual off) = none ∧
      executeInstr st (.JumpNotBelow off) = none ∧
      executeInstr st (.JumpNotBelowEqual off) = none ∧
      executeInstr st (.JumpParityOdd off) = none ∧
      executeInstr st (.JumpNotOverflow off) = none ∧
      executeInstr st (.JumpNotSign off) = none) ∧
    decodeInstruction [0x74, 0x05] 0 = .ok (.JumpEqual 7, 2) ∧
    instrToString (.JumpEqual 7) = "je $+7" ∧
    executeInstr { ip := 2 } (.JumpEqual 7) = some { ip := 2 } ∧
    executeInstr { ip := 2, flags := 64 } (.JumpEqual 7)
      = some { ip := 7, flags := 64 } := by
  refine ⟨?_, ?_,
      fun st off => ⟨rfl, rfl, rfl, rfl, rfl, rfl, rfl, rfl, rfl, rfl, rfl, rfl⟩,
      rfl, rfl, by decide, by decide⟩
  · intro mem ip b d hr h0 h1
    rw [decodeInstruction_via_arm, decodeArm_shortJump mem ip ip none b hr h0,
      armShortJump_eval mem ip b d h1]
  · intro st off
    refine ⟨fun h => ?_, fun h => ?_, fun h => ?_, fun h => ?_, fun h => ?_,
      fun h => ?_⟩ <;>
      simp [executeInstr, h, setRegisterValue, Register.asSubRegister]

/-- Witness for the short-jump theorem: instantiated at the stream
`0x74 0x05` at IP 0 and at a Zero-flag-set state. -/
theorem short_jump_decode_execute_witness :
    decodeInstruction [0x74, 0x05] 0
      = .ok (jumpInstrOf 0x74 (i8wrap (toI8 5 + 2)), (0 + 2) % 65536) ∧
    executeInstr { ip := 2, flags := 64 } (.JumpEqual 7)
      = some (setMain { ip := 2, flags := 64 } .Ip
          (u16AddSigned (getMain ({ ip := 2, flags := 64 } : RegState) .Ip) (7 - 2))) :=
  ⟨short_jump_decode_execute.1 [0x74, 0x05] 0 0x74 5 (by omega) rfl rfl,
    (short_jump_decode_execute.2.1 { ip := 2, flags := 64 } 7).1 (by decide)⟩

/-- Every successful decode-arm result carries a positive byte count. -/
def stepOk : Except DecodeErr ArmStep → Prop
  | .ok (.done _ n) => 0 < n
  | _ => True

lemma stepOk_error {e : DecodeErr} : stepOk (.error e) := trivial

lemma stepOk_moreSeg {sr : SegmentRegister} : stepOk (.ok (.moreSeg sr)) := trivial

lemma stepOk_done {i : Instruction} {n : Nat} (h : 0 < n) :
    stepOk (.ok (.done i n)) := h

lemma stepOk_unknown {mem : List Nat} {a : Nat} : stepOk (unknownInstr mem a) := by
  unfold unknownInstr
  cases readByte mem a
  · exact trivial
  · exact trivial

lemma stepOk_ite {c : Prop} [Decidable c] {t e : Except DecodeErr ArmStep}
    (ht : stepOk t) (he : stepOk e) : stepOk (if c then t else e) := by
  by_cases hc : c
  · rwa [if_pos hc]
  · rwa [if_neg hc]

/-- The `parse_mod_reg_rm_instr` helper consumes at least the two opcode bytes. -/
lemma parseModRegRm_size2 {mem : List Nat} {pos w : Nat}
    {seg : Option SegmentRegister} {reg rm : Operand} {s : Nat}
    (h : parseModRegRm mem pos w seg = .ok (reg, rm, s)) : 2 ≤ s := by
  unfold parseModRegRm at h
  repeat' (first | split at h | simp only [] at h)
  all_goals (injections <;> omega)

/-- The `parse_mod_segreg_rm_instr` helper consumes at least the two opcode bytes. -/
lemma parseModSegregRm_size2 {mem : List Nat} {pos : Nat}
    {seg : Option SegmentRegister} {sr : SegmentRegister} {op : Operand} {s : Nat}
    (h : parseModSegregRm mem pos seg = .ok (sr, op, s)) : 2 ≤ s := by
  unfold parseModSegregRm at h
  repeat' (first | split at h | simp only [] at h)
  all_goals (injections <;> omega)

lemma armAluRm_stepOk {mem : List Nat} {pos a0 : Nat}
    {seg : Option SegmentRegister} {b0 : Nat} :
    stepOk (armAluRm mem pos a0 seg b0) := by
  unfold armAluRm
  simp only []
  cases hp : parseModRegRm mem pos (b0 &&& 1) seg with
  | error e => exact stepOk_error
  | ok v =>
    obtain ⟨reg, rm, size0⟩ := v
    have h2 := parseModRegRm_size2 hp
    simp only []
    repeat' (first
      | exact stepOk_error
      | exact stepOk_unknown
      | exact stepOk_done (by omega)
      | apply stepOk_ite)
    all_goals cases hq1 : readByte mem (pos + 1)
    all_goals try (exact stepOk_error)
    all_goals simp only []
    repeat' (first
      | exact stepOk_error
      | exact stepOk_unknown
      | exact stepOk_done (by omega)
      | apply stepOk_ite)
    all_goals cases hq2 : readByte mem (pos + size0)
    all_goals try (exact stepOk_error)
    all_goals simp only []
    repeat' (first
      | exact stepOk_error
      | exact stepOk_unknown
      | exact stepOk_done (by omega)
      | apply stepOk_ite)
    all_goals cases hq3 : readByte mem (pos + size0 + 1)
    all_goals try (exact stepOk_error)
    all_goals exact stepOk_done (by omega)

lemma armImmRm_stepOk {mem : List Nat} {pos a0 : Nat}
    {seg : Option SegmentRegister} {b0 : Nat} :
    stepOk (armImmRm mem pos a0 seg b0) := by
  unfold armImmRm
  simp only []
  cases hp : parseModRegRm mem pos (b0 &&& 1) seg with
  | error e => exact stepOk_error
  | ok v =>
    obtain ⟨r0, rm, size0⟩ := v
    have h2 := parseModRegRm_size2 hp
    simp only []
    cases hb1 : readByte mem (pos + 1) with
    | error e =>
      cases hi0 : readByte mem (pos + size0) with
      | error e2 => exact stepOk_error
      | ok i0 => exact stepOk_error
    | ok b1 =>
      cases hi0 : readByte mem (pos + size0) with
      | error e => exact stepOk_error
      | ok i0 =>
        simp only []
        by_cases hc6 : b0 = 0xC6
        · simp only [if_pos hc6]
          repeat' (first
            | exact stepOk_error
            | exact stepOk_unknown
            | exact stepOk_done (by omega)
            | apply stepOk_ite)
        · simp only [if_neg hc6]
          by_cases hc7 : b0 = 0xC7
          · simp only [if_pos hc7]
            cases hi1 : readByte mem (pos + size0 + 1) with
            | error e => exact stepOk_error
            | ok i1 =>
              simp only []
              repeat' (first
                | exact stepOk_error
                | exact stepOk_unknown
                | exact stepOk_done (by omega)
                | apply stepOk_ite)
          · simp only [if_neg hc7]
            by_cases hws : b0 &&& 1 > 0 ∧ b0 >>> 1 &&& 1 = 0
            · simp only [if_pos hws]
              cases hi1 : readByte mem (pos + size0 + 1) with
              | error e => exact stepOk_error
              | ok i1 =>
                simp only []
                repeat' (first
                  | exact stepOk_error
                  | exact stepOk_unknown
                  | exact stepOk_done (by omega)
                  | apply stepOk_ite)
            · simp only [if_neg hws]
              repeat' (first
                | exact stepOk_error
                | exact stepOk_unknown
                | exact stepOk_done (by omega)
                | apply stepOk_ite)

lemma armImmAcc_stepOk {mem : List Nat} {pos a0 : Nat} {b0 : Nat} :
    stepOk (armImmAcc mem pos a0 b0) := by
  unfold armImmAcc
  simp only []
  cases h1 : readByte mem (pos + 1) with
  | error e => exact stepOk_error
  | ok i0 =>
    simp only []
    repeat' (first
      | exact stepOk_error
      | exact stepOk_unknown
      | exact stepOk_done (by omega)
      | apply stepOk_ite)
    all_goals cases h2 : readByte mem (pos + 2)
    all_goals try (exact stepOk_error)
    all_goals simp only []
    repeat' (first
      | exact stepOk_error
      | exact stepOk_unknown
      | exact stepOk_done (by omega)
      | apply stepOk_ite)

lemma armMovImmReg_stepOk {mem : List Nat} {pos : Nat} {b0 : Nat} :
    stepOk (armMovImmReg mem pos b0) := by
  unfold armMovImmReg
  simp only []
  cases h1 : readByte mem (pos + 1) with
  | error e => exact stepOk_error
  | ok i0 =>
    simp only []
    repeat' (first
      | exact stepOk_error
      | exact stepOk_done (by omega)
      | apply stepOk_ite)
    all_goals cases h2 : readByte mem (pos + 2)
    all_goals try (exact stepOk_error)
    all_goals exact stepOk_done (by omega)

lemma armMovMemToAcc_stepOk {mem : List Nat} {pos : Nat}
    {seg : Option SegmentRegister} {b0 : Nat} :
    stepOk (armMovMemToAcc mem pos seg b0) := by
  unfold armMovMemToAcc
  simp only []
  cases h1 : readByte mem (pos + 1) with
  | error e => exact stepOk_error
  | ok i0 =>
    simp only []
    repeat' (first
      | exact stepOk_error
      | exact stepOk_done (by omega)
      | apply stepOk_ite)
    all_goals cases h2 : readByte mem (pos + 2)
    all_goals try (exact stepOk_error)
    all_goals exact stepOk_done (by omega)

lemma armMovAccToMem_stepOk {mem : List Nat} {pos : Nat}
    {seg : Option SegmentRegister} {b0 : Nat} :
    stepOk (armMovAccToMem mem pos seg b0) := by
  unfold armMovAccToMem
  simp only []
  cases h1 : readByte mem (pos + 1) with
  | error e => exact stepOk_error
  | ok i0 =>
    simp only []
    repeat' (first
      | exact stepOk_error
      | exact stepOk_done (by omega)
      | apply stepOk_ite)
    all_goals cases h2 : readByte mem (pos + 2)
    all_goals try (exact stepOk_error)
    all_goals exact stepOk_done (by omega)

lemma armRepeatStr_stepOk {mem : List Nat} {pos a0 : Nat} {b0 : Nat} :
    stepOk (armRepeatStr mem pos a0 b0) := by
  unfold armRepeatStr
  simp only []
  cases h1 : readByte mem (pos + 1) with
  | error e => exact stepOk_error
  | ok b1 =>
    repeat' (first
      | exact stepOk_error
      | exact stepOk_done (by omega)
      | apply stepOk_ite)

lemma armShortJump_stepOk {mem : List Nat} {pos : Nat} {b0 : Nat} :
    stepOk (armShortJump mem pos b0) := by
  unfold armShortJump
  cases h1 : readByte mem (pos + 1) with
  | error e => exact stepOk_error
  | ok b1 =>
    simp only []
    repeat' (first
      | exact stepOk_error
      | exact stepOk_done (by omega)
      | apply stepOk_ite)

lemma armGroupFF_stepOk {mem : List Nat} {pos a0 : Nat}
    {seg : Option SegmentRegister} :
    stepOk (armGroupFF mem pos a0 seg) := by
  unfold armGroupFF
  cases hp : parseModRegRm mem pos 1 seg with
  | error e => exact stepOk_error
  | ok v =>
    obtain ⟨r0, rm, size⟩ := v
    have h2 := parseModRegRm_size2 hp
    cases h1 : readByte mem (pos + 1) with
    | error e => exact stepOk_error
    | ok b1 =>
      simp only []
      repeat' (first
        | exact stepOk_error
        | exact stepOk_unknown
        | exact stepOk_done (by omega)
        | apply stepOk_ite)

set_option maxHeartbeats 1000000 in
lemma decodeArm_stepOk {mem : List Nat} {pos a0 : Nat}
    {seg : Option SegmentRegister} :
    stepOk (decodeArm mem pos a0 seg) := by
  unfold decodeArm
  cases hb : readByte mem pos with
  | error e => exact stepOk_error
  | ok b0 =>
    repeat' (first
      | exact stepOk_error
      | exact stepOk_moreSeg
      | exact stepOk_unknown
      | exact stepOk_done (by omega)
      | exact armAluRm_stepOk
      | exact armImmRm_stepOk
      | exact armImmAcc_stepOk
      | exact armMovImmReg_stepOk
      | exact armMovMemToAcc_stepOk
      | exact armMovAccToMem_stepOk
      | exact armRepeatStr_stepOk
      | exact armShortJump_stepOk
      | exact armGroupFF_stepOk
      | apply stepOk_ite)
    all_goals try (cases hps : parseModSegregRm mem pos seg with
      | error e => exact stepOk_error
      | ok v =>
        obtain ⟨sr, op, size⟩ := v
        exact stepOk_done (by have := parseModSegregRm_size2 hps; omega))
    all_goals try (cases hp1 : parseModRegRm mem pos 1 seg with
      | error e => exact stepOk_error
      | ok v =>
        obtain ⟨r0, rm, size⟩ := v
        exact stepOk_done (by have := parseModRegRm_size2 hp1; omega))
    all_goals try (cases hpw : parseModRegRm mem pos (b0 &&& 1) seg with
      | error e => exact stepOk_error
      | ok v =>
        obtain ⟨r0, rm, size⟩ := v
        exact stepOk_done (by have := parseModRegRm_size2 hpw; omega))
    all_goals try (cases hq : readByte mem (pos + 1) with
      | error e => exact stepOk_error
      | ok b1 => exact stepOk_done (by omega))
    all_goals try (cases hq1 : readByte mem (pos + 1) with
      | error e =>
        cases hq2 : readByte mem (pos + 2) with
        | error e2 => exact stepOk_error
        | ok hi => exact stepOk_error
      | ok lo =>
        cases hq2 : readByte mem (pos + 2) with
        | error e => exact stepOk_error
        | ok hi => exact stepOk_done (by omega))

/-- The byte count the decode loop consumes: the same prefix-and-arm
recursion as `decodeLoop`, returning the running count `k + size` (prefix
bytes plus the arm's byte count) instead of the wrapped IP. -/
def decodeLoopLen (mem : List Nat) (addr0 : Nat) (seg : Option SegmentRegister)
    (k : Nat) : Nat → Except DecodeErr (Instruction × Nat)
  | 0 => .error .oob
  | fuel + 1 =>
    match decodeArm mem (addr0 + k) addr0 seg with
    | .ok (.moreSeg sr) => decodeLoopLen mem addr0 (some sr) (k + 1) fuel
    | .ok (.done i size) => .ok (i, k + size)
    | .error e => .error e

/-- The number of bytes `decode_instruction` consumes for the instruction
at `ip` (prefix bytes included). -/
def decodeLen (mem : List Nat) (ip : Nat) : Except DecodeErr (Instruction × Nat) :=
  decodeLoopLen mem ip none 0 (mem.length + 1)

/-- A successful decode returns exactly the IP advanced (with 16-bit wrap)
by the positive byte count `decodeLoopLen` attributes to the same
instruction. -/
lemma decodeLoop_len {mem : List Nat} {addr0 : Nat} {seg : Option SegmentRegister}
    {k fuel : Nat} {i : Instruction} {ip2 : Nat}
    (h : decodeLoop mem addr0 seg k fuel = .ok (i, ip2)) :
    ∃ n, decodeLoopLen mem addr0 seg k fuel = .ok (i, n) ∧ k < n ∧
      ip2 = (addr0 + n) % 65536 := by
  induction fuel generalizing seg k with
  | zero => exact absurd h (by simp [decodeLoop])
  | succ fuel ih =>
    unfold decodeLoop at h
    unfold decodeLoopLen
    cases harm : decodeArm mem (addr0 + k) addr0 seg with
    | error e =>
      rw [harm] at h
      exact absurd h (by simp)
    | ok st =>
      cases st with
      | moreSeg sr =>
        rw [harm] at h
        obtain ⟨n, hlen, hk, he⟩ := ih h
        exact ⟨n, hlen, by omega, he⟩
      | done i0 size =>
        rw [harm] at h
        have h2 : Except.ok (i0, (addr0 + k + size) % 65536) = Except.ok (i, ip2) := h
        injection h2 with h1
        injection h1 with hi hip
        have hz : 0 < size := by
          have hs := @decodeArm_stepOk mem (addr0 + k) addr0 seg
          rw [harm] at hs
          exact hs
        exact ⟨k + size, by rw [hi], by omega, by omega⟩

/-- C6: whenever `decode` succeeds, the new IP is exactly the old IP
advanced (in the decoder's 16-bit IP arithmetic) by the number of bytes
consumed for the instruction — the positive count `decodeLen` computes by
the same prefix-and-arm recursion, segment-override prefixes included —
and decoding again from the old IP over the unchanged memory yields the
same instruction and the same new IP. -/
theorem decode_ip_advance (mem : List Nat) (ip : Nat) (i : Instruction)
    (ip2 : Nat) (h : decodeInstruction mem ip = .ok (i, ip2)) :
    (∃ n, decodeLen mem ip = .ok (i, n) ∧ 0 < n ∧ ip2 = (ip + n) % 65536) ∧
    (∀ (i2 : Instruction) (ip2b : Nat),
      decodeInstruction mem ip = .ok (i2, ip2b) → i2 = i ∧ ip2b = ip2) := by
  constructor
  · obtain ⟨n, hlen, hk, he⟩ := decodeLoop_len h
    exact ⟨n, hlen, by omega, he⟩
  · intro i2 ip2b h2
    rw [h] at h2
    injection h2 with h3
    injection h3 with hi hip
    exact ⟨hi.symm, hip.symm⟩

/-- Witness for the IP-advance theorem: a `cs:` segment-override prefix
followed by `nop` at IP 0 consumes two bytes and ends at IP 2. -/
theorem decode_ip_advance_witness :
    (∃ n, decodeLen [0x2E, 0x90] 0 = .ok (.Nop, n) ∧ 0 < n ∧
      2 = (0 + n) % 65536) ∧
    (∀ (i2 : Instruction) (ip2b : Nat),
      decodeInstruction [0x2E, 0x90] 0 = .ok (i2, ip2b) → i2 = .Nop ∧ ip2b = 2) :=
  decode_ip_advance [0x2E, 0x90] 0 .Nop 2 rfl

end Emu8086
